import Mathlib

/-! Arc extensions-page filter (`Extension Filter.boost.js`): a shallow embedding of the
userscript and proofs of its specified behaviour.

Data model:

* `Element` is a DOM element as the script observes it: tag name, `id`, class list, the other
  attributes, the JavaScript property `checked` (present only when it is a boolean), its own
  text, its light-DOM children and the tree behind `element.shadowRoot` (absent when the
  property is `null`).
* A tree scope (a document, a shadow root, the inside of an element) is a `List Element`;
  document order is pre-order.
* `State` is the script's `state` record.  Elements the script creates and keeps a reference to
  (`state.buttons`, `state.countEl`) are held in the record; later writes to them
  (`aria-pressed`, `textContent`) are made there, and the bar in the tree holds them as they
  were when it was built.
* `Storage` is `localStorage` restricted to what the script can observe of it; a call that can
  raise returns in `Except`.
* `Page` is what `init` reads and writes besides the list: `state`, the storage, and the
  numbers of listeners and observers registered on the shadow root.
* `Sched` is what `scheduleApply` reads and writes: `state`, the browser's list of
  animation-frame callbacks, and a count of the passes run.
-/

namespace ArcBoost

/-! ## Keyed lists

Attributes, storage entries and the `Map` of buttons are lists of pairs under a string key. -/

/-- The value stored under a key, if any. -/
def lookupKey {α : Type} (key : String) (l : List (String × α)) : Option α :=
  (l.find? (fun p => p.1 == key)).map Prod.snd

/-- Whether a key is present. -/
def hasKey {α : Type} (key : String) (l : List (String × α)) : Bool :=
  l.any (fun p => p.1 == key)

/-- Store a value under a key: a key already present keeps its place, a new key goes last. -/
def setKey {α : Type} (key : String) (value : α) (l : List (String × α)) : List (String × α) :=
  if hasKey key l then l.map (fun p => if p.1 == key then (key, value) else p)
  else l ++ [(key, value)]

/-- Remove a key. -/
def removeKey {α : Type} (key : String) (l : List (String × α)) : List (String × α) :=
  l.filter (fun p => !(p.1 == key))

/-! ## DOM model -/

/-- A DOM element. -/
inductive Element where
  | mk (tag : String) (id : String) (classList : List String) (attrs : List (String × String))
      (checked : Option Bool) (text : String) (children : List Element)
      (shadowRoot : Option (List Element))

namespace Element

def tag : Element → String
  | mk t _ _ _ _ _ _ _ => t

def id : Element → String
  | mk _ i _ _ _ _ _ _ => i

def classList : Element → List String
  | mk _ _ c _ _ _ _ _ => c

def attrs : Element → List (String × String)
  | mk _ _ _ a _ _ _ _ => a

/-- The property `element.checked` when `typeof element.checked === 'boolean'`. -/
def checked : Element → Option Bool
  | mk _ _ _ _ c _ _ _ => c

def text : Element → String
  | mk _ _ _ _ _ t _ _ => t

def children : Element → List Element
  | mk _ _ _ _ _ _ c _ => c

def shadowRoot : Element → Option (List Element)
  | mk _ _ _ _ _ _ _ s => s

/-- The element with other attributes. -/
def withAttrs : Element → List (String × String) → Element
  | mk t i c _ ch tx cs sr, a => mk t i c a ch tx cs sr

/-- The element with other children. -/
def withChildren : Element → List Element → Element
  | mk t i c a ch tx _ sr, cs => mk t i c a ch tx cs sr

/-- The element with another shadow tree. -/
def withShadowRoot : Element → Option (List Element) → Element
  | mk t i c a ch tx cs _, sr => mk t i c a ch tx cs sr

/-- The call `element.getAttribute(name)`. -/
def getAttribute (e : Element) (name : String) : Option String :=
  lookupKey name e.attrs

/-- The call `element.hasAttribute(name)`. -/
def hasAttribute (e : Element) (name : String) : Bool :=
  hasKey name e.attrs

/-- The call `element.setAttribute(name, value)`. -/
def setAttribute (e : Element) (name value : String) : Element :=
  e.withAttrs (setKey name value e.attrs)

/-- The call `element.removeAttribute(name)`. -/
def removeAttribute (e : Element) (name : String) : Element :=
  e.withAttrs (removeKey name e.attrs)

/-- The assignment `element.textContent = value`: the children are replaced by one text node. -/
def setTextContent : Element → String → Element
  | mk t i c a ch _ _ sr, tx => mk t i c a ch tx [] sr

/-- The call `element.appendChild(child)`. -/
def appendChild (e child : Element) : Element :=
  e.withChildren (e.children ++ [child])

end Element

/-- The call `document.createElement(tag)`. -/
def createElement (tag : String) : Element :=
  .mk tag "" [] [] none "" [] none

/-- The selectors the script uses. -/
inductive Selector where
  /-- Selector `*`. -/
  | any
  /-- Selector `tag`. -/
  | byTag (tag : String)
  /-- Selector `#id`. -/
  | byId (id : String)
  /-- Selector `tag#id`. -/
  | byTagId (tag id : String)
  /-- Selector `.cls`. -/
  | byClass (cls : String)

/-- Whether an element matches a selector. -/
def Selector.test : Selector → Element → Bool
  | .any, _ => true
  | .byTag t, e => e.tag == t
  | .byId i, e => e.id == i
  | .byTagId t i, e => e.tag == t && e.id == i
  | .byClass c, e => e.classList.contains c

mutual
/-- The proper descendants of an element, in document order, shadow trees excluded. -/
def descendantsOf : Element → List Element
  | .mk _ _ _ _ _ _ cs _ => descendants cs
/-- The elements of a tree scope, in document order, shadow trees excluded. -/
def descendants : List Element → List Element
  | [] => []
  | e :: rest => e :: (descendantsOf e ++ descendants rest)
end

/-- The call `root.querySelectorAll(selector)`. -/
def querySelectorAll (root : List Element) (sel : Selector) : List Element :=
  (descendants root).filter sel.test

/-- The call `root.querySelector(selector)`. -/
def querySelector (root : List Element) (sel : Selector) : Option Element :=
  (descendants root).find? sel.test

/-- The call `shadowRoot.getElementById(id)`. -/
def getElementById (root : List Element) (id : String) : Option Element :=
  querySelector root (.byId id)

/-! ## Constants and state -/

def FILTERS : List (String × String) :=
  [("all", "All"), ("enabled", "Enabled"), ("disabled", "Disabled")]

def STORAGE_KEY : String := "arc-boost-extension-filter"
def HIDDEN_ATTR : String := "data-arc-filter-hidden"
def STYLE_ID : String := "arc-boost-filter-style"
def BAR_ID : String := "arc-boost-filter-bar"

/-- The record `state`. -/
structure State where
  filter : String
  shadowRoot : Option (List Element)
  buttons : List (String × Element)
  countEl : Option Element
  rafId : Nat

/-- The initial value of `state`. -/
def State.initial : State :=
  { filter := "all", shadowRoot := none, buttons := [], countEl := none, rafId := 0 }

/-! ## Status reader -/

/-- Function `getItemState(item)`; `none` is `null`. -/
def getItemState (item : Element) : Option String :=
  match item.shadowRoot with
  | none => none
  | some root =>
    let fromCard : Option String :=
      match querySelector root (.byId "card") with
      | none => none
      | some card =>
        if card.classList.contains "enabled" then some "enabled"
        else if card.classList.contains "disabled" then some "disabled"
        else none
    match fromCard with
    | some status => some status
    | none =>
      match querySelector root (.byTagId "cr-toggle" "enableToggle") with
      | none => none
      | some toggle =>
        let pressed := toggle.getAttribute "aria-pressed"
        if pressed = some "true" then some "enabled"
        else if pressed = some "false" then some "disabled"
        else
          match toggle.checked with
          | some b => if b then some "enabled" else some "disabled"
          | none => if toggle.hasAttribute "checked" then some "enabled" else none

/-! ## Filter engine -/

/-- The template literal of `updateCounts`. -/
def counterText (shown total enabled disabled : Nat) : String :=
  s!"Shown {shown} / {total} (On {enabled}, Off {disabled})"

/-- Function `updateCounts(shown, total, enabled, disabled)`. -/
def updateCounts (s : State) (shown total enabled disabled : Nat) : State :=
  match s.countEl with
  | none => s
  | some el =>
    { s with countEl := some (el.setTextContent (counterText shown total enabled disabled)) }

/-- The four counters of one `applyFilter` pass. -/
structure Counts where
  total : Nat
  shown : Nat
  enabled : Nat
  disabled : Nat
deriving DecidableEq, Repr

/-- The condition `visible || status === null` of the loop body of `applyFilter`. -/
def shows (filter : String) (status : Option String) : Bool :=
  let visible := true
  let visible := if filter = "enabled" then decide (status = some "enabled") else visible
  let visible := if filter = "disabled" then decide (status = some "disabled") else visible
  visible || decide (status = none)

/-- What one iteration of the loop of `applyFilter` does to its item. -/
def markItem (filter : String) (item : Element) : Element :=
  let status := getItemState item
  if shows filter status then item.removeAttribute HIDDEN_ATTR
  else item.setAttribute HIDDEN_ATTR "true"

/-- What one iteration of the loop of `applyFilter` does to the four counters. -/
def tally (filter : String) (c : Counts) (item : Element) : Counts :=
  let status := getItemState item
  let c := { c with total := c.total + 1 }
  let c := if status = some "enabled" then { c with enabled := c.enabled + 1 } else c
  let c := if status = some "disabled" then { c with disabled := c.disabled + 1 } else c
  if shows filter status then { c with shown := c.shown + 1 } else c

mutual
/-- The element after `f` has run on it, when it matches, and on each match below it. -/
def forEachMatchIn (sel : Selector) (f : Element → Element) : Element → Element
  | .mk t i c a ch tx cs sr =>
    if sel.test (.mk t i c a ch tx cs sr) then f (.mk t i c a ch tx (forEachMatch sel f cs) sr)
    else .mk t i c a ch tx (forEachMatch sel f cs) sr
/-- The tree after `for (const item of root.querySelectorAll(sel)) f(item)`, for an `f` that
writes to its item only. -/
def forEachMatch (sel : Selector) (f : Element → Element) : List Element → List Element
  | [] => []
  | e :: rest => forEachMatchIn sel f e :: forEachMatch sel f rest
end

/-- Function `applyFilter()`. -/
def applyFilter (s : State) : State :=
  match s.shadowRoot with
  | none => s
  | some root =>
    let items := querySelectorAll root (.byTag "extensions-item")
    let c := items.foldl (tally s.filter) ⟨0, 0, 0, 0⟩
    let root := forEachMatch (.byTag "extensions-item") (markItem s.filter) root
    updateCounts { s with shadowRoot := some root } c.shown c.total c.enabled c.disabled

/-- The array `items` of `applyFilter`, empty when `state.shadowRoot` is `null`. -/
def State.items (s : State) : List Element :=
  match s.shadowRoot with
  | none => []
  | some root => querySelectorAll root (.byTag "extensions-item")

/-- The text of the counter element, when there is one. -/
def State.countText (s : State) : Option String :=
  s.countEl.map Element.text

/-- The text a pass of `applyFilter` writes to the counter: the template of `updateCounts` at
the numbers of items shown, of items, of items classified enabled and of items classified
disabled. -/
def State.summary (s : State) : String :=
  counterText (s.items.countP (fun e => shows s.filter (getItemState e)))
    s.items.length
    (s.items.countP (fun e => getItemState e == some "enabled"))
    (s.items.countP (fun e => getItemState e == some "disabled"))

/-- The element without its children: what a selector tests and what the script reads of an
element other than its subtree. -/
def Element.view (e : Element) : Element :=
  e.withChildren []

/-- The element after `f` when it matches the selector, the element itself otherwise. -/
def applyIf (sel : Selector) (f : Element → Element) (e : Element) : Element :=
  if sel.test e then f e else e

/-- A write that touches neither the children of its element nor depends on them. -/
def KeepsChildren (f : Element → Element) : Prop :=
  ∀ (e : Element) (cs : List Element), f (e.withChildren cs) = (f e).withChildren cs

/-- A test that does not look at the children of its element. -/
def IgnoresChildren (q : Element → Bool) : Prop :=
  ∀ (e : Element) (cs : List Element), q (e.withChildren cs) = q e

/-- What a successful in-place write on the first match guarantees: the element written to is
the first match, the result of the write and everything below it are in the new tree, and a
count over the new tree differs from the count over the old one by the subtree written. -/
def ReplacedIn (sel : Selector) (f : Element → Element) (before after : List Element) : Prop :=
  ∃ x, before.find? sel.test = some x
    ∧ (∀ y ∈ f x :: descendantsOf (f x), y ∈ after)
    ∧ ∀ q : Element → Bool, IgnoresChildren q →
        after.countP q + (x :: descendantsOf x).countP q
          = before.countP q + (f x :: descendantsOf (f x)).countP q

/-- How a tree changes, seen without children, when `f` runs in place on the first match `x` of
the selector: the elements before the subtree of `x` and those after it stay, and the subtree
of `f x` stands where the subtree of `x` stood. -/
def Spliced (sel : Selector) (f : Element → Element) (before after : List Element) : Prop :=
  ∃ (x : Element) (pre post : List Element),
    before.find? sel.test = some x
    ∧ before.map Element.view = pre ++ (x :: descendantsOf x).map Element.view ++ post
    ∧ after.map Element.view = pre ++ (f x :: descendantsOf (f x)).map Element.view ++ post

/-! ## Sample page -/

/-- An item whose card carries the class `enabled`. -/
def sampleEnabled : Element :=
  .mk "extensions-item" "aaaa" [] [] none "" []
    (some [.mk "div" "card" ["enabled"] [] none "" [] none])

/-- An item without a card class whose toggle has `aria-pressed="false"`. -/
def sampleDisabled : Element :=
  .mk "extensions-item" "bbbb" [] [("data-arc-filter-hidden", "true")] none "" []
    (some [.mk "div" "card" [] [] none "" []  none,
           .mk "cr-toggle" "enableToggle" [] [("aria-pressed", "false")] none "" [] none])

/-- An item that exposes no shadow root. -/
def sampleUnknown : Element :=
  .mk "extensions-item" "cccc" [] [] none "" [] none

/-- The shadow tree of a list with the three sample items. -/
def sampleRoot : List Element :=
  [.mk "div" "container" [] [] none "" [
    .mk "div" "extensions-section" [] [] none "" [
      .mk "h2" "" ["section-header"] [] none "Extensions" [] none,
      .mk "div" "" ["items-container"] [] none "" [sampleEnabled, sampleDisabled, sampleUnknown]
        none] none] none]

/-- A state over the sample list with the filter `disabled` and a counter element. -/
def sampleState : State :=
  { filter := "disabled", shadowRoot := some sampleRoot, buttons := [],
    countEl := some (createElement "span"), rafId := 0 }

/-! ## Status reader: the precedence as a list of rules -/

/-- The result of the first rule that applies, `none` (unknown) when no rule applies. -/
def firstRule : List (Bool × Option String) → Option String
  | [] => none
  | (applies, result) :: rest => if applies then result else firstRule rest

/-- The precedence of the status reader, rule by rule in the order of the specification: each
rule is the condition under which it applies and the status it gives. -/
def statusRules (item : Element) : List (Bool × Option String) :=
  let card := item.shadowRoot.bind (fun root => querySelector root (.byId "card"))
  let toggle :=
    item.shadowRoot.bind (fun root => querySelector root (.byTagId "cr-toggle" "enableToggle"))
  [ (item.shadowRoot.isNone, none),
    (card.any (fun c => c.classList.contains "enabled"), some "enabled"),
    (card.any (fun c => c.classList.contains "disabled"), some "disabled"),
    (toggle.any (fun t => t.getAttribute "aria-pressed" == some "true"), some "enabled"),
    (toggle.any (fun t => t.getAttribute "aria-pressed" == some "false"), some "disabled"),
    (toggle.any (fun t => t.checked == some true), some "enabled"),
    (toggle.any (fun t => t.checked == some false), some "disabled"),
    (toggle.any (fun t => t.hasAttribute "checked"), some "enabled") ]

/-! ## DOM locator -/

mutual
/-- The loop `for (const node of all)` of `findInShadow` run from one element on: the element,
then the elements below it, in document order. -/
def findInShadowLoopAt (sel : Selector) : Element → Option Element
  | .mk _ _ _ _ _ _ cs sr =>
    match findInShadowRoot sel sr with
    | some found => some found
    | none => findInShadowLoop sel cs
/-- The loop body of `findInShadow`: `if (!node.shadowRoot) continue;` and the recursive call
`findInShadow(node.shadowRoot, selector)`. -/
def findInShadowRoot (sel : Selector) : Option (List Element) → Option Element
  | none => none
  | some root =>
    match querySelector root sel with
    | some direct => some direct
    | none => findInShadowLoop sel root
/-- The loop `for (const node of all)` of `findInShadow` over a tree scope, in document order,
left at the first `found`. -/
def findInShadowLoop (sel : Selector) : List Element → Option Element
  | [] => none
  | e :: rest =>
    match findInShadowLoopAt sel e with
    | some found => some found
    | none => findInShadowLoop sel rest
end

/-- Function `findInShadow(root, selector)`. -/
def findInShadow (root : List Element) (sel : Selector) : Option Element :=
  match querySelector root sel with
  | some direct => some direct
  | none => findInShadowLoop sel root

/-- The loop body of `findInShadow` on one node, written with the recursive call:
`if (!node.shadowRoot) continue; const found = findInShadow(node.shadowRoot, selector);`. -/
def findInShadowAt (sel : Selector) (node : Element) : Option Element :=
  match node.shadowRoot with
  | none => none
  | some shadowRoot => findInShadow shadowRoot sel

/-- Function `findItemList()`, over the elements of the document. -/
def findItemList (document : List Element) : Option Element :=
  match querySelector document (.byTag "extensions-item-list") with
  | some direct => some direct
  | none =>
    match querySelector document (.byTag "extensions-manager") with
    | none => none
    | some manager =>
      match manager.shadowRoot with
      | none => none
      | some shadowRoot => findInShadow shadowRoot (.byTag "extensions-item-list")

/-- An element lies within a root when it is in the root's own tree or in a shadow tree nested
at any depth beneath an element of the root. -/
inductive Within : List Element → Element → Prop
  | own {root : List Element} {e : Element} : e ∈ descendants root → Within root e
  | nested {root shadow : List Element} {host e : Element} :
      host ∈ descendants root → host.shadowRoot = some shadow → Within shadow e → Within root e

/-- A document whose list sits two shadow roots deep. -/
def sampleDocument : List Element :=
  [.mk "html" "" [] [] none "" [
    .mk "body" "" [] [] none "" [
      .mk "extensions-manager" "" [] [] none "" []
        (some [.mk "div" "viewManager" [] [] none "" [
          .mk "cr-view" "" [] [] none "" []
            (some [.mk "extensions-item-list" "items-list" [] [] none "" []
              (some sampleRoot)])] none])] none] none]

/-! ## Persistence adapter -/

/-- An exception raised by the browser. -/
inductive DOMException where
  | securityError
  | quotaExceededError
  | notFoundError
deriving DecidableEq, Repr

/-- The object `localStorage` as the script can observe it: its entries, and whether reading
from it or writing to it raises. -/
structure Storage where
  entries : List (String × String)
  readRaises : Bool
  writeRaises : Bool
deriving DecidableEq, Repr

/-- The call `localStorage.getItem(key)`. -/
def Storage.getItem (ls : Storage) (key : String) : Except DOMException (Option String) :=
  if ls.readRaises then .error .securityError else .ok (lookupKey key ls.entries)

/-- The call `localStorage.setItem(key, value)`. -/
def Storage.setItem (ls : Storage) (key value : String) : Except DOMException Storage :=
  if ls.writeRaises then .error .quotaExceededError
  else .ok { ls with entries := setKey key value ls.entries }

/-- Function `loadFilter()`; `none` is `null`. -/
def loadFilter (ls : Storage) : Except DOMException (Option String) :=
  Except.tryCatch
    (do
      let value ← ls.getItem STORAGE_KEY
      if FILTERS.any (fun f => some f.1 == value) then pure value else pure none)
    (fun _ => pure none)

/-- Function `saveFilter(value)`: the storage after the call. -/
def saveFilter (ls : Storage) (value : String) : Except DOMException Storage :=
  Except.tryCatch (ls.setItem STORAGE_KEY value) (fun _ => pure ls)

/-- A storage that holds nothing and raises on no access. -/
def sampleStorage : Storage :=
  { entries := [], readRaises := false, writeRaises := false }

/-- A storage on a restricted page: every access raises. -/
def restrictedStorage : Storage :=
  { entries := [], readRaises := true, writeRaises := true }

/-! ## UI builder -/

namespace Element

/-- The assignment `element.id = value`. -/
def setId : Element → String → Element
  | mk t _ c a ch tx cs sr, i => mk t i c a ch tx cs sr

/-- The assignment `element.className = value`, the value given as its list of class names. -/
def setClassName : Element → List String → Element
  | mk t i _ a ch tx cs sr, c => mk t i c a ch tx cs sr

end Element

/-- The text of the style block: the template literal of `ensureStyles` with `BAR_ID` and
`HIDDEN_ATTR` filled in, trimmed, line by line. -/
def STYLE_TEXT : String :=
  String.intercalate "\n" [
    "#arc-boost-filter-bar \x7b",
    "  display: flex;",
    "  flex-wrap: wrap;",
    "  align-items: center;",
    "  gap: 10px;",
    "  margin: 12px 0 16px;",
    "  color-scheme: light dark;",
    "\x7d",
    "",
    "#arc-boost-filter-bar .arc-boost-label \x7b",
    "  display: inline-flex;",
    "  align-items: center;",
    "  height: 32px;",
    "  margin: 0;",
    "  padding: 0 2px 0 0;",
    "\x7d",
    "",
    "#arc-boost-filter-bar .arc-boost-button \x7b",
    "  -webkit-appearance: none;",
    "  appearance: none;",
    "  font: inherit;",
    "",
    "  height: 32px;",
    "  padding: 0 16px;",
    "",
    "  border-radius: 999px;",
    "  border: 1px solid var(--cr-link-color, #1a73e8);",
    "",
    "  background: transparent;",
    "  color: var(--cr-link-color, #1a73e8);",
    "",
    "  font-size: 13px;",
    "  line-height: 20px;",
    "  font-weight: 500;",
    "",
    "  cursor: pointer;",
    "  user-select: none;",
    "",
    "  transition: background-color 120ms ease, box-shadow 120ms ease;",
    "\x7d",
    "",
    "/* hover：比选中态略浅，接近原生 outline pill 的 hover tint */",
    "#arc-boost-filter-bar .arc-boost-button:hover \x7b",
    "  background: var(",
    "    --cr-hover-background-color,",
    "    color-mix(in srgb, currentColor 6%, transparent)",
    "  );",
    "\x7d",
    "",
    "/* active：略深一点点 */",
    "#arc-boost-filter-bar .arc-boost-button:active \x7b",
    "  background: var(",
    "    --cr-active-background-color,",
    "    color-mix(in srgb, currentColor 12%, transparent)",
    "  );",
    "\x7d",
    "",
    "/* pressed：选中态更接近原生的 tint（比 hover 更明显） */",
    "#arc-boost-filter-bar .arc-boost-button[aria-pressed=\"true\"] \x7b",
    "  background: color-mix(in srgb, currentColor 14%, transparent);",
    "  font-weight: 600;",
    "\x7d",
    "",
    "/* pressed + active：按下时再深一点，保留原生的反馈感 */",
    "#arc-boost-filter-bar .arc-boost-button[aria-pressed=\"true\"]:active \x7b",
    "  background: color-mix(in srgb, currentColor 18%, transparent);",
    "\x7d",
    "",
    "#arc-boost-filter-bar .arc-boost-button:focus-visible \x7b",
    "  outline: none;",
    "  box-shadow: 0 0 0 2px var(--cr-focus-outline-color, var(--cr-link-color, #1a73e8));",
    "\x7d",
    "",
    "#arc-boost-filter-bar .arc-boost-count \x7b",
    "  margin-left: auto;",
    "  font-size: 13px;",
    "  line-height: 20px;",
    "  color: var(--cr-secondary-text-color, #5f6368);",
    "  white-space: nowrap;",
    "\x7d",
    "",
    "extensions-item[data-arc-filter-hidden=\"true\"] \x7b",
    "  display: none !important;",
    "\x7d",
    "",
    "@media (prefers-color-scheme: dark) \x7b",
    "  #arc-boost-filter-bar .arc-boost-button \x7b",
    "    border-color: #2f7db8;",
    "  \x7d",
    "\x7d",
    "",
    "@media (prefers-reduced-motion: reduce) \x7b",
    "  #arc-boost-filter-bar .arc-boost-button \x7b",
    "    transition: none;",
    "  \x7d",
    "\x7d"]

/-- Function `ensureStyles(shadowRoot)`: the shadow tree after the call. -/
def ensureStyles (shadowRoot : List Element) : List Element :=
  if (getElementById shadowRoot STYLE_ID).isSome then shadowRoot
  else
    let style := createElement "style"
    let style := style.setId STYLE_ID
    let style := style.setTextContent STYLE_TEXT
    shadowRoot ++ [style]

mutual
/-- The element after `f` has run on the first match of the selector below it, if any. -/
def replaceFirstIn (sel : Selector) (f : Element → Element) : Element → Option Element
  | .mk t i c a ch tx cs sr =>
    match replaceFirst sel f cs with
    | some cs' => some (.mk t i c a ch tx cs' sr)
    | none => none
/-- The tree after `f` has run on `root.querySelector(sel)`, if there is a match: the write
`const x = root.querySelector(sel); f(x)` made in place. -/
def replaceFirst (sel : Selector) (f : Element → Element) : List Element → Option (List Element)
  | [] => none
  | e :: rest =>
    if sel.test e then some (f e :: rest)
    else
      match replaceFirstIn sel f e with
      | some e' => some (e' :: rest)
      | none =>
        match replaceFirst sel f rest with
        | some rest' => some (e :: rest')
        | none => none
end

/-- A reference to a node below a parent element, as `insertBefore` sees it. -/
inductive NodeRef where
  /-- The child at this index. -/
  | child (index : Nat)
  /-- A node further down, not a child of the parent. -/
  | deeper
deriving DecidableEq, Repr

/-- The node `parent.querySelector(sel)` as a reference from the parent whose children are
given: the first match in document order is either a child or lies below a child. -/
def querySelectorRef (sel : Selector) : List Element → Nat → Option NodeRef
  | [], _ => none
  | e :: rest, index =>
    if sel.test e then some (.child index)
    else if (querySelector e.children sel).isSome then some .deeper
    else querySelectorRef sel rest (index + 1)

/-- The property `parent.firstChild`, as a reference. -/
def Element.firstChildRef (parent : Element) : Option NodeRef :=
  if parent.children.isEmpty then none else some (.child 0)

/-- The call `parent.insertBefore(node, reference)`: a `null` reference appends, a reference
that is not a child of the parent raises `NotFoundError`. -/
def Element.insertBefore (parent node : Element) (reference : Option NodeRef) :
    Except DOMException Element :=
  match reference with
  | none => .ok (parent.appendChild node)
  | some (.child index) =>
    .ok (parent.withChildren
      (parent.children.take index ++ [node] ++ parent.children.drop index))
  | some .deeper => .error .notFoundError

/-- The label of the bar. -/
def barLabel : Element :=
  let label := createElement "h2"
  let label := label.setClassName ["section-header", "arc-boost-label"]
  label.setTextContent "Filter"

/-- The button of the bar for one entry of `FILTERS`. -/
def barButton (filter : String × String) : Element :=
  let button := createElement "button"
  let button := button.setAttribute "type" "button"
  let button := button.setClassName ["arc-boost-button"]
  let button := button.setAttribute "data-filter" filter.1
  button.setTextContent filter.2

/-- The counter of the bar. -/
def barCount : Element :=
  let count := createElement "span"
  count.setClassName ["arc-boost-count"]

/-- The result of a call that may raise: the exception if one was raised, and the shadow tree
and the record `state` as the call left them. -/
structure BarResult where
  thrown : Option DOMException
  shadowRoot : List Element
  state : State

/-- Function `createFilterBar(shadowRoot)`. -/
def createFilterBar (shadowRoot : List Element) (s : State) : BarResult :=
  if (getElementById shadowRoot BAR_ID).isSome then ⟨none, shadowRoot, s⟩
  else
    match querySelector shadowRoot (.byId "extensions-section") with
    | none => ⟨none, shadowRoot, s⟩
    | some «section» =>
      let bar := createElement "div"
      let bar := bar.setId BAR_ID
      let bar := bar.setClassName ["items-container"]
      let bar := bar.appendChild barLabel
      let (bar, buttons) := FILTERS.foldl
        (fun (acc : Element × List (String × Element)) filter =>
          let button := barButton filter
          (acc.1.appendChild button, setKey filter.1 button acc.2))
        (bar, s.buttons)
      let count := barCount
      let bar := bar.appendChild count
      let s := { s with buttons := buttons, countEl := some count }
      let header := querySelectorRef (.byClass "section-header") «section».children 0
      let reference := match header with
        | some h => some h
        | none => «section».firstChildRef
      match «section».insertBefore bar reference with
      | .error e => ⟨some e, shadowRoot, s⟩
      | .ok section' =>
        match replaceFirst (.byId "extensions-section") (fun _ => section') shadowRoot with
        | some shadowRoot' => ⟨none, shadowRoot', s⟩
        | none => ⟨none, shadowRoot, s⟩

/-- Function `updateButtons()`. -/
def updateButtons (s : State) : State :=
  { s with buttons := s.buttons.map (fun entry =>
      let active := entry.1 == s.filter
      (entry.1, entry.2.setAttribute "aria-pressed" (if active then "true" else "false"))) }

/-! ## Bootstrap -/

/-- What `init` reads and writes besides the list: the record `state`, `localStorage`, and the
numbers of click listeners and mutation observers registered on the list's shadow root. -/
structure Page where
  state : State
  localStorage : Storage
  clickListeners : Nat
  observers : Nat

/-- Function `attachListeners(shadowRoot)`: one more click listener, one more observer. -/
def attachListeners (pg : Page) : Page :=
  { pg with clickListeners := pg.clickListeners + 1, observers := pg.observers + 1 }

/-- The result of `init`: the exception if one was raised, the list with its shadow tree as the
call left it, and the page. -/
structure InitResult where
  thrown : Option DOMException
  list : Element
  page : Page

/-- Function `init(list)`.  The objects `list.shadowRoot` and `state.shadowRoot` are one. -/
def init (list : Element) (pg : Page) : InitResult :=
  match list.shadowRoot with
  | none => ⟨none, list, pg⟩
  | some shadowRoot =>
    if (getElementById shadowRoot BAR_ID).isSome then ⟨none, list, pg⟩
    else
      let s := { pg.state with shadowRoot := some shadowRoot }
      let shadowRoot := ensureStyles shadowRoot
      let r := createFilterBar shadowRoot s
      let s := { r.state with shadowRoot := some r.shadowRoot }
      match r.thrown with
      | some e => ⟨some e, list.withShadowRoot s.shadowRoot, { pg with state := s }⟩
      | none =>
        match loadFilter pg.localStorage with
        | .error e => ⟨some e, list.withShadowRoot s.shadowRoot, { pg with state := s }⟩
        | .ok saved =>
          let s := match saved with
            | some value => if value ≠ "" then { s with filter := value } else s
            | none => s
          let s := updateButtons s
          let s := applyFilter s
          ⟨none, list.withShadowRoot s.shadowRoot, attachListeners { pg with state := s }⟩

/-- The click handler of the button for one filter id. -/
def onFilterClick (id : String) (pg : Page) : Except DOMException Page := do
  let s := { pg.state with filter := id }
  let ls ← saveFilter pg.localStorage s.filter
  let s := updateButtons s
  let s := applyFilter s
  pure { pg with state := s, localStorage := ls }

/-- The page when the script starts. -/
def Page.initial (ls : Storage) : Page :=
  { state := State.initial, localStorage := ls, clickListeners := 0, observers := 0 }

/-- The sample list element. -/
def sampleList : Element :=
  .mk "extensions-item-list" "items-list" [] [] none "" [] (some sampleRoot)

/-- A list whose shadow tree has no `#extensions-section`. -/
def bareList : Element :=
  .mk "extensions-item-list" "items-list" [] [] none "" []
    (some [.mk "div" "container" [] [] none "" [sampleEnabled, sampleDisabled] none])

/-- A storage holding the filter `enabled`. -/
def enabledStorage : Storage :=
  { entries := [(STORAGE_KEY, "enabled")], readRaises := false, writeRaises := false }

/-! ## Calling twice in sequence -/

/-- The style block that `ensureStyles` appends. -/
def styleBlock : Element :=
  ((createElement "style").setId STYLE_ID).setTextContent STYLE_TEXT

/-- The bar that `createFilterBar` builds: label, one button for each filter, counter. -/
def filterBar : Element :=
  .mk "div" BAR_ID ["items-container"] [] none ""
    ([barLabel] ++ FILTERS.map barButton ++ [barCount]) none

/-- The record `state` once `createFilterBar` has registered the buttons and the counter. -/
def State.withBar (s : State) : State :=
  { s with
    buttons := FILTERS.foldl (fun acc filter => setKey filter.1 (barButton filter) acc) s.buttons,
    countEl := some barCount }

/-- Two calls of `createFilterBar` in sequence; a call that raises ends the sequence. -/
def createFilterBarTwice (shadowRoot : List Element) (s : State) : BarResult :=
  let r := createFilterBar shadowRoot s
  match r.thrown with
  | some _ => r
  | none => createFilterBar r.shadowRoot r.state

/-- Two calls of `init` on the same list in sequence; a call that raises ends the sequence. -/
def initTwice (list : Element) (pg : Page) : InitResult :=
  let r := init list pg
  match r.thrown with
  | some _ => r
  | none => init r.list r.page

/-- The number of elements of a tree with a given id. -/
def countId (root : List Element) (id : String) : Nat :=
  (querySelectorAll root (.byId id)).length

/-- The line `if (saved) state.filter = saved;` of `init`. -/
def chooseFilter (s : State) (saved : Option String) : State :=
  match saved with
  | some value => if value ≠ "" then { s with filter := value } else s
  | none => s

/-- The record `state` at the end of an `init` that ran to its end, from the result of
`createFilterBar` and the value of `loadFilter()`. -/
def initState (r : BarResult) (saved : Option String) : State :=
  applyFilter (updateButtons (chooseFilter { r.state with shadowRoot := some r.shadowRoot } saved))

/-- Whether a call of `init` on this list gets past its two guards: the list has a shadow root
and no element with the id of the bar is in it. -/
def Element.lacksBar (list : Element) : Bool :=
  match list.shadowRoot with
  | none => false
  | some shadowRoot => (getElementById shadowRoot BAR_ID).isNone

/-! ## Debounced scheduling -/

/-- What `scheduleApply` and its frame callback read and write: the record `state`, the
browser's list of the animation-frame callbacks `scheduleApply` has registered (by handle), the
last handle the browser has issued, and the number of passes of `applyFilter` run so far. -/
structure Sched where
  state : State
  callbacks : List Nat
  lastHandle : Nat
  passes : Nat

/-- The call `requestAnimationFrame(callback)`: the browser issues the next handle, a positive
number, and appends the callback to its list. -/
def requestAnimationFrame (w : Sched) : Nat × Sched :=
  let handle := w.lastHandle + 1
  (handle, { w with callbacks := w.callbacks ++ [handle], lastHandle := handle })

/-- Function `scheduleApply()`. -/
def scheduleApply (w : Sched) : Sched :=
  if w.state.rafId ≠ 0 then w
  else
    let (handle, w) := requestAnimationFrame w
    { w with state := { w.state with rafId := handle } }

/-- A number of calls of `scheduleApply()` one after the other. -/
def scheduleApplyTimes : Nat → Sched → Sched
  | 0, w => w
  | n + 1, w => scheduleApplyTimes n (scheduleApply w)

/-- The callback `() => { state.rafId = 0; applyFilter(); }`, with `during` calls of
`scheduleApply()` made while the pass runs. -/
def frameCallback (during : Nat) (w : Sched) : Sched :=
  let w := { w with state := { w.state with rafId := 0 } }
  let w := scheduleApplyTimes during w
  { w with state := applyFilter w.state, passes := w.passes + 1 }

/-- An animation frame fires: the browser empties its list of callbacks and runs those that
were in it; callbacks registered meanwhile wait for the next frame. -/
def runFrame (during : Nat) (w : Sched) : Sched :=
  w.callbacks.foldl (fun w _ => frameCallback during w) { w with callbacks := [] }

/-- What can happen to the scheduler: a call of `scheduleApply()`, or an animation frame during
whose passes `scheduleApply()` is called a number of times. -/
inductive SchedEvent where
  | schedule
  | frame (during : Nat)
deriving DecidableEq, Repr

/-- One event. -/
def Sched.step (w : Sched) : SchedEvent → Sched
  | .schedule => scheduleApply w
  | .frame during => runFrame during w

/-- The scheduler once `init` has run: no refresh pending, no callback of `scheduleApply`
registered. -/
def Sched.start (s : State) (lastHandle : Nat) : Sched :=
  { state := { s with rafId := 0 }, callbacks := [], lastHandle := lastHandle, passes := 0 }

/-- The scheduler after a sequence of events. -/
def Sched.run (w : Sched) (events : List SchedEvent) : Sched :=
  events.foldl Sched.step w

/-- Either nothing is pending, or the one callback whose handle `state.rafId` holds. -/
def Sched.Coalesced (w : Sched) : Prop :=
  (w.state.rafId = 0 ∧ w.callbacks = []) ∨ (w.state.rafId ≠ 0 ∧ w.callbacks = [w.state.rafId])

/-! # Theorems -/

/-! ## Lemmas on the filter engine -/

theorem getItemState_congr {e e' : Element} (h : e.shadowRoot = e'.shadowRoot) :
    getItemState e = getItemState e' := by
  unfold getItemState
  rw [h]

theorem test_withChildren (sel : Selector) (e : Element) (cs : List Element) :
    sel.test (e.withChildren cs) = sel.test e := by
  cases sel <;> cases e <;> rfl

theorem test_view (sel : Selector) (e : Element) : sel.test e.view = sel.test e :=
  test_withChildren sel e []

theorem attrs_view (e : Element) : e.view.attrs = e.attrs := by
  cases e; rfl

theorem shadowRoot_view (e : Element) : e.view.shadowRoot = e.shadowRoot := by
  cases e; rfl

theorem getItemState_view (e : Element) : getItemState e.view = getItemState e :=
  getItemState_congr (shadowRoot_view e)

theorem hasAttribute_view (e : Element) (n : String) :
    e.view.hasAttribute n = e.hasAttribute n := by
  cases e; rfl

theorem getAttribute_view (e : Element) (n : String) :
    e.view.getAttribute n = e.getAttribute n := by
  cases e; rfl

theorem descendantsOf_withChildren (e : Element) (cs : List Element) :
    descendantsOf (e.withChildren cs) = descendants cs := by
  cases e; simp [Element.withChildren, descendantsOf]

theorem withChildren_withChildren (e : Element) (cs cs' : List Element) :
    (e.withChildren cs).withChildren cs' = e.withChildren cs' := by
  cases e; rfl

theorem withChildren_children (e : Element) : e.withChildren e.children = e := by
  cases e; rfl

theorem children_withChildren (e : Element) (cs : List Element) :
    (e.withChildren cs).children = cs := by
  cases e; rfl

theorem descendants_append (l₁ l₂ : List Element) :
    descendants (l₁ ++ l₂) = descendants l₁ ++ descendants l₂ := by
  induction l₁ with
  | nil => simp [descendants]
  | cons e rest ih => simp [descendants, ih]

theorem markItem_keepsChildren (filter : String) : KeepsChildren (markItem filter) := by
  intro e cs
  have hst : getItemState (e.withChildren cs) = getItemState e :=
    getItemState_congr (by cases e; rfl)
  simp only [markItem, hst]
  split <;> cases e <;> rfl

theorem shadowRoot_markItem (filter : String) (e : Element) :
    (markItem filter e).shadowRoot = e.shadowRoot := by
  simp only [markItem]
  split <;> cases e <;> rfl

theorem test_markItem (sel : Selector) (filter : String) (e : Element) :
    sel.test (markItem filter e) = sel.test e := by
  simp only [markItem]
  split <;> cases sel <;> cases e <;> rfl

mutual
theorem view_forEachMatchIn (sel : Selector) (f : Element → Element) (hf : KeepsChildren f) :
    ∀ e : Element,
      (forEachMatchIn sel f e).view = (applyIf sel f e).view
      ∧ (descendantsOf (forEachMatchIn sel f e)).map Element.view
        = (descendantsOf e).map (fun x => (applyIf sel f x).view)
  | .mk t i c a ch tx cs sr => by
    have ih := view_forEachMatch sel f hf cs
    have hkeep : f (.mk t i c a ch tx (forEachMatch sel f cs) sr)
        = (f (.mk t i c a ch tx cs sr)).withChildren (forEachMatch sel f cs) :=
      hf (.mk t i c a ch tx cs sr) (forEachMatch sel f cs)
    simp only [forEachMatchIn]
    by_cases ht : sel.test (.mk t i c a ch tx cs sr) = true
    · rw [if_pos ht, applyIf, if_pos ht, hkeep]
      refine ⟨?_, ?_⟩
      · simp only [Element.view, withChildren_withChildren]
      · rw [descendantsOf_withChildren, ih, descendantsOf]
    · rw [if_neg ht, applyIf, if_neg ht]
      refine ⟨rfl, ?_⟩
      rw [descendantsOf, ih, descendantsOf]
theorem view_forEachMatch (sel : Selector) (f : Element → Element) (hf : KeepsChildren f) :
    ∀ l : List Element,
      (descendants (forEachMatch sel f l)).map Element.view
        = (descendants l).map (fun x => (applyIf sel f x).view)
  | [] => by simp [forEachMatch, descendants]
  | e :: rest => by
    have h1 := view_forEachMatchIn sel f hf e
    have h2 := view_forEachMatch sel f hf rest
    simp [forEachMatch, descendants, h1.1, h1.2, h2]
end

mutual
theorem forEachMatchIn_idem (sel : Selector) (f : Element → Element) (hf : KeepsChildren f)
    (hidem : ∀ e, f (f e) = f e) (htest : ∀ e, sel.test (f e) = sel.test e) :
    ∀ e : Element, forEachMatchIn sel f (forEachMatchIn sel f e) = forEachMatchIn sel f e
  | .mk t i c a ch tx cs sr => by
    have ih := forEachMatch_idem sel f hf hidem htest cs
    have hkeep : f (.mk t i c a ch tx (forEachMatch sel f cs) sr)
        = (f (.mk t i c a ch tx cs sr)).withChildren (forEachMatch sel f cs) :=
      hf (.mk t i c a ch tx cs sr) (forEachMatch sel f cs)
    have hshape : ∀ x : Element, forEachMatchIn sel f x
        = applyIf sel f (x.withChildren (forEachMatch sel f x.children)) := by
      intro x
      cases x with
      | mk t i c a ch tx cs sr =>
        simp only [forEachMatchIn, applyIf, Element.withChildren, Element.children]
        have : sel.test (.mk t i c a ch tx (forEachMatch sel f cs) sr)
            = sel.test (.mk t i c a ch tx cs sr) :=
          test_withChildren sel (.mk t i c a ch tx cs sr) _
        rw [this]
    rw [hshape (forEachMatchIn sel f _)]
    simp only [forEachMatchIn]
    by_cases ht : sel.test (.mk t i c a ch tx cs sr) = true
    · rw [if_pos ht, hkeep, children_withChildren, ih, withChildren_withChildren, applyIf,
        test_withChildren, htest, if_pos ht, ← hf, hidem, hf]
    · rw [if_neg ht]
      simp only [Element.children, Element.withChildren, ih, applyIf]
      have : sel.test (.mk t i c a ch tx (forEachMatch sel f cs) sr)
          = sel.test (.mk t i c a ch tx cs sr) :=
        test_withChildren sel (.mk t i c a ch tx cs sr) _
      rw [this, if_neg ht]
theorem forEachMatch_idem (sel : Selector) (f : Element → Element) (hf : KeepsChildren f)
    (hidem : ∀ e, f (f e) = f e) (htest : ∀ e, sel.test (f e) = sel.test e) :
    ∀ l : List Element, forEachMatch sel f (forEachMatch sel f l) = forEachMatch sel f l
  | [] => by simp [forEachMatch]
  | e :: rest => by
    have h1 := forEachMatchIn_idem sel f hf hidem htest e
    have h2 := forEachMatch_idem sel f hf hidem htest rest
    simp [forEachMatch, h1, h2]
end

theorem lookupKey_setKey {α : Type} (n : String) (v : α) (l : List (String × α)) :
    lookupKey n (setKey n v l) = some v := by
  have present : ∀ a : List (String × α), a.any (fun p => p.1 == n) = true →
      ((a.map (fun p => if p.1 == n then (n, v) else p)).find? (fun p => p.1 == n)).map Prod.snd
        = some v := by
    intro a
    induction a with
    | nil => intro h; simp at h
    | cons p rest ih =>
      intro h
      by_cases hp : (p.1 == n) = true
      · rw [List.map_cons, if_pos hp, List.find?_cons]
        have : ((n, v).1 == n) = true := by simp
        rw [this]
        rfl
      · have h' : rest.any (fun p => p.1 == n) = true := by
          rw [List.any_cons] at h
          simpa [hp] using h
        rw [List.map_cons, if_neg hp, List.find?_cons]
        simp only [Bool.not_eq_true] at hp
        rw [hp]
        exact ih h'
  have absent : ∀ a : List (String × α), a.any (fun p => p.1 == n) = false →
      ((a ++ [(n, v)]).find? (fun p => p.1 == n)).map Prod.snd = some v := by
    intro a
    induction a with
    | nil => intro _; simp [List.find?_cons]
    | cons p rest ih =>
      intro h
      rw [List.any_cons, Bool.or_eq_false_iff] at h
      rw [List.cons_append, List.find?_cons, h.1]
      exact ih h.2
  unfold lookupKey setKey hasKey
  split
  · rename_i h
    exact present l h
  · rename_i h
    exact absent l (Bool.eq_false_iff.mpr h)

theorem hasKey_of_lookupKey {α : Type} {n : String} {v : α} {l : List (String × α)}
    (h : lookupKey n l = some v) : hasKey n l = true := by
  simp only [lookupKey, Option.map_eq_some'] at h
  obtain ⟨p, hp, _⟩ := h
  simp only [hasKey, List.any_eq_true]
  exact ⟨p, List.mem_of_find?_eq_some hp, @List.find?_some _ (fun p => p.1 == n) p _ hp⟩

theorem hasKey_removeKey {α : Type} (n : String) (l : List (String × α)) :
    hasKey n (removeKey n l) = false := by
  simp [hasKey, removeKey]

theorem hasAttribute_removeAttribute (e : Element) (n : String) :
    (e.removeAttribute n).hasAttribute n = false := by
  cases e
  exact hasKey_removeKey n _

theorem getAttribute_setAttribute (e : Element) (n v : String) :
    (e.setAttribute n v).getAttribute n = some v := by
  cases e
  exact lookupKey_setKey n v _

theorem hasAttribute_of_getAttribute {e : Element} {n v : String}
    (h : e.getAttribute n = some v) : e.hasAttribute n = true :=
  hasKey_of_lookupKey h

theorem hasAttribute_markItem (filter : String) (e : Element) :
    (markItem filter e).hasAttribute HIDDEN_ATTR = !(shows filter (getItemState e)) := by
  simp only [markItem]
  split
  · rename_i h
    rw [hasAttribute_removeAttribute, h]; rfl
  · rename_i h
    rw [hasAttribute_of_getAttribute (getAttribute_setAttribute e HIDDEN_ATTR "true")]
    simp [h]

theorem getAttribute_markItem {filter : String} {e : Element}
    (h : shows filter (getItemState e) = false) :
    (markItem filter e).getAttribute HIDDEN_ATTR = some "true" := by
  simp [markItem, h, getAttribute_setAttribute]

theorem view_items_forEachMatch (filter : String) (root : List Element) :
    (querySelectorAll (forEachMatch (.byTag "extensions-item") (markItem filter) root)
        (.byTag "extensions-item")).map Element.view
      = (querySelectorAll root (.byTag "extensions-item")).map
          (fun x => (markItem filter x).view) := by
  have key := view_forEachMatch (.byTag "extensions-item") (markItem filter)
    (markItem_keepsChildren filter) root
  have h1 : ∀ l : List Element,
      (l.filter (Selector.byTag "extensions-item").test).map Element.view
        = (l.map Element.view).filter (Selector.byTag "extensions-item").test := by
    intro l
    rw [List.filter_map]
    congr 1
    apply List.filter_congr
    intro e _
    exact (test_view _ e).symm
  unfold querySelectorAll
  rw [h1, key, List.filter_map]
  have h2 : ((Selector.byTag "extensions-item").test
      ∘ fun x => (applyIf (.byTag "extensions-item") (markItem filter) x).view)
      = (Selector.byTag "extensions-item").test := by
    funext e
    simp only [Function.comp, test_view, applyIf]
    split
    · exact test_markItem _ filter e
    · rfl
  rw [h2]
  apply List.map_congr_left
  intro e he
  have := (List.mem_filter.mp he).2
  simp [applyIf, this]

theorem applyFilter_shadowRoot (s : State) (root : List Element) (h : s.shadowRoot = some root) :
    (applyFilter s).shadowRoot
      = some (forEachMatch (.byTag "extensions-item") (markItem s.filter) root) := by
  simp only [applyFilter, h, updateCounts]
  split <;> rfl

theorem view_items_applyFilter (s : State) :
    (applyFilter s).items.map Element.view
      = s.items.map (fun x => (markItem s.filter x).view) := by
  cases h : s.shadowRoot with
  | none => simp [applyFilter, State.items, h]
  | some root =>
    simp only [State.items, applyFilter_shadowRoot s root h, h]
    exact view_items_forEachMatch s.filter root

/-- Every item after the pass is an item before the pass with its marker rewritten. -/
theorem item_after_applyFilter (s : State) {item : Element} (h : item ∈ (applyFilter s).items) :
    ∃ old ∈ s.items, item.attrs = (markItem s.filter old).attrs
      ∧ getItemState item = getItemState old := by
  have hv : item.view ∈ (applyFilter s).items.map Element.view := List.mem_map_of_mem _ h
  rw [view_items_applyFilter, List.mem_map] at hv
  obtain ⟨old, hold, heq⟩ := hv
  refine ⟨old, hold, ?_, ?_⟩
  · rw [← attrs_view item, ← heq, attrs_view]
  · rw [← getItemState_view item, ← heq, getItemState_view]
    exact getItemState_congr (shadowRoot_markItem _ _)

theorem status_items_applyFilter (s : State) :
    (applyFilter s).items.map getItemState = s.items.map getItemState := by
  have h := congrArg (List.map getItemState) (view_items_applyFilter s)
  simp only [List.map_map] at h
  have e1 : (getItemState ∘ Element.view) = getItemState := by
    funext e
    exact getItemState_view e
  have e2 : (getItemState ∘ fun x => (markItem s.filter x).view) = getItemState := by
    funext e
    simp only [Function.comp, getItemState_view]
    exact getItemState_congr (shadowRoot_markItem _ _)
  rw [e1, e2] at h
  exact h

theorem foldl_tally (filter : String) : ∀ (items : List Element) (c : Counts),
    items.foldl (tally filter) c
      = { total := c.total + items.length,
          shown := c.shown + items.countP (fun e => shows filter (getItemState e)),
          enabled := c.enabled + items.countP (fun e => getItemState e == some "enabled"),
          disabled := c.disabled + items.countP (fun e => getItemState e == some "disabled") }
  | [], c => by simp
  | item :: rest, c => by
    rw [List.foldl_cons, foldl_tally filter rest]
    simp only [tally, List.length_cons, List.countP_cons]
    generalize getItemState item = st
    cases h3 : shows filter st <;>
    by_cases h1 : st = some "enabled" <;>
    by_cases h2 : st = some "disabled" <;>
    simp_all <;> omega

theorem countP_shown_applyFilter (s : State) :
    (applyFilter s).items.countP (fun e => !e.hasAttribute HIDDEN_ATTR)
      = s.items.countP (fun e => shows s.filter (getItemState e)) := by
  have h := congrArg (List.countP (fun e : Element => !e.hasAttribute HIDDEN_ATTR))
    (view_items_applyFilter s)
  rw [List.countP_map, List.countP_map] at h
  have e1 : ((fun e : Element => !e.hasAttribute HIDDEN_ATTR) ∘ Element.view)
      = fun e => !e.hasAttribute HIDDEN_ATTR := by
    funext e
    simp only [Function.comp, hasAttribute_view]
  have e2 : ((fun e : Element => !e.hasAttribute HIDDEN_ATTR)
        ∘ fun x => (markItem s.filter x).view)
      = fun e => shows s.filter (getItemState e) := by
    funext e
    simp only [Function.comp, hasAttribute_view, hasAttribute_markItem, Bool.not_not]
  rw [e1, e2] at h
  exact h

theorem countText_applyFilter (s : State) (root : List Element) (el : Element)
    (hroot : s.shadowRoot = some root) (hel : s.countEl = some el) :
    (applyFilter s).countText
      = some (counterText (s.items.countP (fun e => shows s.filter (getItemState e)))
          s.items.length
          (s.items.countP (fun e => getItemState e == some "enabled"))
          (s.items.countP (fun e => getItemState e == some "disabled"))) := by
  cases el
  simp [applyFilter, hroot, updateCounts, hel, State.countText, State.items, foldl_tally,
    Element.setTextContent, Element.text]

/-! ## Filter engine: visibility and counter -/

theorem removeKey_setKey {α : Type} (k : String) (v : α) (l : List (String × α)) :
    removeKey k (setKey k v l) = removeKey k l := by
  unfold setKey removeKey
  split
  · rw [List.filter_map]
    have hfun : ((fun p : String × α => !(p.1 == k)) ∘ fun p => if p.1 == k then (k, v) else p)
        = fun p => !(p.1 == k) := by
      funext p
      simp only [Function.comp]
      by_cases hp : (p.1 == k) = true
      · simp [hp]
      · simp [hp]
    rw [hfun]
    conv_rhs => rw [← List.map_id (l.filter (fun p => !(p.1 == k)))]
    apply List.map_congr_left
    intro p hp
    have hne : ¬ (p.1 == k) = true := by
      have := (List.mem_filter.mp hp).2
      simpa using this
    simp [hne]
  · rw [List.filter_append]
    simp

theorem removeAttribute_markItem (filter : String) (e : Element) :
    (markItem filter e).removeAttribute HIDDEN_ATTR = e.removeAttribute HIDDEN_ATTR := by
  simp only [markItem]
  split
  · cases e
    simp [Element.removeAttribute, Element.withAttrs, Element.attrs, removeKey,
      List.filter_filter]
  · cases e
    simp only [Element.removeAttribute, Element.setAttribute, Element.withAttrs, Element.attrs,
      removeKey_setKey]

theorem removeAttribute_view (e : Element) (n : String) :
    (e.removeAttribute n).view = e.view.removeAttribute n := by
  cases e; rfl

/-- The items after a pass over a list of items, seen without their children: their markers
are as the loop body leaves them, and nothing else of them is changed. -/
theorem items_of_marked_views {after before : List Element} {filter : String}
    (h : after.map Element.view = before.map (fun x => (markItem filter x).view)) :
    after.map getItemState = before.map getItemState
    ∧ after.map (fun e => e.hasAttribute HIDDEN_ATTR)
        = before.map (fun e => !(shows filter (getItemState e)))
    ∧ after.map (fun e => (e.removeAttribute HIDDEN_ATTR).view)
        = before.map (fun e => (e.removeAttribute HIDDEN_ATTR).view) := by
  refine ⟨?_, ?_, ?_⟩
  · have h1 := congrArg (List.map getItemState) h
    simp only [List.map_map] at h1
    have e1 : (getItemState ∘ Element.view) = getItemState := by
      funext e
      exact getItemState_view e
    have e2 : (getItemState ∘ fun x => (markItem filter x).view) = getItemState := by
      funext e
      simp only [Function.comp, getItemState_view]
      exact getItemState_congr (shadowRoot_markItem _ _)
    rw [e1, e2] at h1
    exact h1
  · have h1 := congrArg (List.map (fun e : Element => e.hasAttribute HIDDEN_ATTR)) h
    simp only [List.map_map] at h1
    have e1 : ((fun e : Element => e.hasAttribute HIDDEN_ATTR) ∘ Element.view)
        = fun e => e.hasAttribute HIDDEN_ATTR := by
      funext e
      simp only [Function.comp, hasAttribute_view]
    have e2 : ((fun e : Element => e.hasAttribute HIDDEN_ATTR)
          ∘ fun x => (markItem filter x).view)
        = fun e => !(shows filter (getItemState e)) := by
      funext e
      simp only [Function.comp, hasAttribute_view, hasAttribute_markItem]
    rw [e1, e2] at h1
    exact h1
  · have h1 := congrArg (List.map (fun e : Element => e.removeAttribute HIDDEN_ATTR)) h
    simp only [List.map_map] at h1
    have e1 : ((fun e : Element => e.removeAttribute HIDDEN_ATTR) ∘ Element.view)
        = fun e => (e.removeAttribute HIDDEN_ATTR).view := by
      funext e
      simp only [Function.comp, removeAttribute_view]
    have e2 : ((fun e : Element => e.removeAttribute HIDDEN_ATTR)
          ∘ fun x => (markItem filter x).view)
        = fun e => (e.removeAttribute HIDDEN_ATTR).view := by
      funext e
      simp only [Function.comp, ← removeAttribute_view, removeAttribute_markItem]
    rw [e1, e2] at h1
    exact h1

theorem shows_none (filter : String) : shows filter none = true := by
  simp [shows]

/-- The number of items shown is the number of unknown items plus the number of classified
items that pass the filter. -/
theorem countP_shows_split (filter : String) (items : List Element) :
    items.countP (fun e => shows filter (getItemState e))
      = items.countP (fun e => getItemState e == none)
        + items.countP (fun e => getItemState e != none && shows filter (getItemState e)) := by
  induction items with
  | nil => rfl
  | cons item rest ih =>
    simp only [List.countP_cons, ih]
    cases hst : getItemState item with
    | none =>
      simp only [shows_none]
      simp
      omega
    | some st =>
      cases shows filter (some st)
      · simp
      · simp
        omega

/-- The marker of an item after the pass: present exactly when the loop body found the item
not to be shown, and then with the value `"true"`. -/
theorem marker_of_item (s : State) {item : Element} (hitem : item ∈ (applyFilter s).items) :
    item.hasAttribute HIDDEN_ATTR = !(shows s.filter (getItemState item))
    ∧ (shows s.filter (getItemState item) = false →
        item.getAttribute HIDDEN_ATTR = some "true") := by
  obtain ⟨old, -, hattrs, hsame⟩ := item_after_applyFilter s hitem
  refine ⟨?_, ?_⟩
  · rw [hsame, ← hasAttribute_markItem]
    simp only [Element.hasAttribute, hattrs]
  · intro hfalse
    rw [hsame] at hfalse
    have := getAttribute_markItem hfalse
    simp only [Element.getAttribute] at this ⊢
    rw [hattrs]
    exact this

/-- C1: after `applyFilter` the items keep their classification, and under an active filter
`F` among `all`, `enabled`, `disabled` every item classified `enabled` or `disabled` is without
the marker `data-arc-filter-hidden` exactly when `F` is `all` or `F` is the item's status;
otherwise it carries `data-arc-filter-hidden="true"`. -/
theorem applyFilter_visibility (s : State) (hF : s.filter ∈ ["all", "enabled", "disabled"]) :
    (applyFilter s).items.map getItemState = s.items.map getItemState
    ∧ ∀ item ∈ (applyFilter s).items, ∀ status ∈ ["enabled", "disabled"],
        getItemState item = some status →
        (item.hasAttribute HIDDEN_ATTR = false ↔ (s.filter = "all" ∨ s.filter = status))
        ∧ (¬ (s.filter = "all" ∨ s.filter = status) →
            item.getAttribute HIDDEN_ATTR = some "true") := by
  refine ⟨status_items_applyFilter s, ?_⟩
  intro item hitem status hstatus hst
  obtain ⟨hhas, hattr⟩ := marker_of_item s hitem
  have hshow : shows s.filter (getItemState item) = true ↔
      (s.filter = "all" ∨ s.filter = status) := by
    rw [hst]
    simp only [List.mem_cons, List.mem_singleton, List.not_mem_nil, or_false] at hF hstatus
    rcases hF with h | h | h <;> rcases hstatus with h' | h' <;> subst h' <;> rw [h] <;> decide
  refine ⟨?_, ?_⟩
  · rw [hhas, ← hshow]
    cases shows s.filter (getItemState item) <;> simp
  · intro hnot
    apply hattr
    rw [← Bool.not_eq_true, hshow]
    exact hnot

/-- The sample page under the filter `disabled`: C1 applies to it. -/
theorem applyFilter_visibility_witness :
    sampleState.filter ∈ ["all", "enabled", "disabled"]
    ∧ (applyFilter sampleState).items.map getItemState = sampleState.items.map getItemState
    ∧ ∀ item ∈ (applyFilter sampleState).items, ∀ status ∈ ["enabled", "disabled"],
        getItemState item = some status →
        (item.hasAttribute HIDDEN_ATTR = false
          ↔ (sampleState.filter = "all" ∨ sampleState.filter = status))
        ∧ (¬ (sampleState.filter = "all" ∨ sampleState.filter = status) →
            item.getAttribute HIDDEN_ATTR = some "true") :=
  ⟨by decide, applyFilter_visibility sampleState (by decide)⟩

/-- C2: under every filter, the items after `applyFilter` are the items before it, in the same
order, with the same classification and changed in nothing but the marker
`data-arc-filter-hidden`; every item that `getItemState` classifies as unknown (`null`) is
without the marker after the pass, at the place in the list it had before; and it is counted as
shown: the loop body raises `shown` by one for it, and when the counter element exists the
number the pass writes as shown is the number of unknown items plus the number of classified
items that pass the filter, which is the number of items without the marker after the pass. -/
theorem applyFilter_unknown_visible (s : State) :
    (applyFilter s).items.map getItemState = s.items.map getItemState
    ∧ (applyFilter s).items.map (fun e => (e.removeAttribute HIDDEN_ATTR).view)
        = s.items.map (fun e => (e.removeAttribute HIDDEN_ATTR).view)
    ∧ (∀ item ∈ (applyFilter s).items, getItemState item = none →
        item.hasAttribute HIDDEN_ATTR = false)
    ∧ (∀ (i : Nat) (item : Element), s.items[i]? = some item → getItemState item = none →
        ∃ item', (applyFilter s).items[i]? = some item' ∧ getItemState item' = none
          ∧ item'.hasAttribute HIDDEN_ATTR = false)
    ∧ (∀ (c : Counts) (item : Element), getItemState item = none →
        (tally s.filter c item).shown = c.shown + 1)
    ∧ (∀ (root : List Element) (el : Element), s.shadowRoot = some root → s.countEl = some el →
        (applyFilter s).countText
          = some (counterText
              (s.items.countP (fun e => getItemState e == none)
                + s.items.countP
                    (fun e => getItemState e != none && shows s.filter (getItemState e)))
              s.items.length
              (s.items.countP (fun e => getItemState e == some "enabled"))
              (s.items.countP (fun e => getItemState e == some "disabled")))
        ∧ (applyFilter s).items.countP (fun e => !e.hasAttribute HIDDEN_ATTR)
          = s.items.countP (fun e => getItemState e == none)
            + s.items.countP
                (fun e => getItemState e != none && shows s.filter (getItemState e))) := by
  obtain ⟨hst, hmark, hsame⟩ := items_of_marked_views (view_items_applyFilter s)
  refine ⟨hst, hsame, ?_, ?_, ?_, ?_⟩
  · intro item hitem hnone
    rw [(marker_of_item s hitem).1, hnone]
    simp [shows]
  · intro i item hi hnone
    have h1 : ((applyFilter s).items.map getItemState)[i]? = some none := by
      rw [hst, List.getElem?_map, hi, ← hnone]
      rfl
    have h2 : ((applyFilter s).items.map (fun e => e.hasAttribute HIDDEN_ATTR))[i]?
        = some false := by
      rw [hmark, List.getElem?_map, hi]
      simp [hnone, shows_none]
    rw [List.getElem?_map] at h1 h2
    cases hget : (applyFilter s).items[i]? with
    | none => rw [hget] at h1; cases h1
    | some item' =>
      rw [hget] at h1 h2
      simp only [Option.map_some', Option.some.injEq] at h1 h2
      exact ⟨item', rfl, h1, h2⟩
  · intro c item hnone
    simp [tally, hnone, shows]
  · intro root el hroot hel
    refine ⟨?_, ?_⟩
    · rw [countText_applyFilter s root el hroot hel, countP_shows_split]
    · rw [countP_shown_applyFilter, countP_shows_split]

/-- The sample page under the filter `disabled`: the unknown item, third in the list, is third
and without the marker after the pass, and the counter counts it among the two shown. -/
theorem applyFilter_unknown_visible_witness :
    (sampleState.items.map getItemState)[2]? = some none
    ∧ ((applyFilter sampleState).items.map
        (fun e => (getItemState e, e.hasAttribute HIDDEN_ATTR)))[2]? = some (none, false)
    ∧ (applyFilter sampleState).countText
        = some (counterText
            (sampleState.items.countP (fun e => getItemState e == none)
              + sampleState.items.countP
                  (fun e => getItemState e != none
                    && shows sampleState.filter (getItemState e)))
            sampleState.items.length
            (sampleState.items.countP (fun e => getItemState e == some "enabled"))
            (sampleState.items.countP (fun e => getItemState e == some "disabled")))
    ∧ (applyFilter sampleState).countText = some "Shown 2 / 3 (On 1, Off 1)" :=
  ⟨by decide, by decide,
    ((applyFilter_unknown_visible sampleState).2.2.2.2.2 sampleRoot (createElement "span")
      rfl rfl).1,
    by decide⟩

/-- C3: when the list and the counter element exist, after `applyFilter` the counter reads
`Shown S / T (On E, Off D)` with `T` the number of items, `S` the number of items without the
marker after the pass, `E` and `D` the numbers of items classified enabled and disabled; no
item gives `Shown 0 / 0 (On 0, Off 0)`, and items classified enabled, disabled, unknown under
the filter `disabled` give `Shown 2 / 3 (On 1, Off 1)`. -/
theorem applyFilter_counter (s : State) (root : List Element) (el : Element)
    (hroot : s.shadowRoot = some root) (hel : s.countEl = some el) :
    (applyFilter s).countText
        = some (counterText
            ((applyFilter s).items.countP (fun e => !e.hasAttribute HIDDEN_ATTR))
            (applyFilter s).items.length
            ((applyFilter s).items.countP (fun e => getItemState e == some "enabled"))
            ((applyFilter s).items.countP (fun e => getItemState e == some "disabled")))
    ∧ (applyFilter s).items.length = s.items.length
    ∧ (applyFilter s).items.map getItemState = s.items.map getItemState
    ∧ (s.items = [] → (applyFilter s).countText = some "Shown 0 / 0 (On 0, Off 0)")
    ∧ (s.items.map getItemState = [some "enabled", some "disabled", none] →
        s.filter = "disabled" →
        (applyFilter s).countText = some "Shown 2 / 3 (On 1, Off 1)") := by
  have hst := status_items_applyFilter s
  have hlen : (applyFilter s).items.length = s.items.length := by
    simpa using congrArg List.length hst
  have hcount : ∀ q : Option String → Bool,
      (applyFilter s).items.countP (fun e => q (getItemState e))
        = s.items.countP (fun e => q (getItemState e)) := by
    intro q
    have := congrArg (List.countP q) hst
    simpa [List.countP_map, Function.comp] using this
  have htext := countText_applyFilter s root el hroot hel
  refine ⟨?_, hlen, hst, ?_, ?_⟩
  · rw [htext, countP_shown_applyFilter, hlen,
      hcount (fun st => st == some "enabled"), hcount (fun st => st == some "disabled")]
  · intro hnil
    rw [htext, hnil]
    simp only [List.countP_nil, List.length_nil]
    decide
  · intro hsts hfil
    have hc : ∀ q : Option String → Bool, s.items.countP (fun e => q (getItemState e))
        = [some "enabled", some "disabled", none].countP q := by
      intro q
      rw [← hsts, List.countP_map]
      rfl
    have hl : s.items.length = 3 := by
      simpa using congrArg List.length hsts
    rw [htext, hc (fun st => shows s.filter st), hc (fun st => st == some "enabled"),
      hc (fun st => st == some "disabled"), hl, hfil]
    decide

/-- The sample page: three items classified enabled, disabled, unknown under the filter
`disabled`; the counter reads `Shown 2 / 3 (On 1, Off 1)`. -/
theorem applyFilter_counter_witness :
    (applyFilter sampleState).countText = some "Shown 2 / 3 (On 1, Off 1)" :=
  (applyFilter_counter sampleState sampleRoot (createElement "span") rfl rfl).2.2.2.2
    (by decide) rfl

/-! ## Status reader -/

/-- C4: `getItemState` returns the result of the first rule that applies, in the order: no
shadow root gives unknown; a `#card` with class `enabled` gives enabled, else with class
`disabled` gives disabled; else the toggle's `aria-pressed` `"true"` gives enabled and
`"false"` gives disabled; else a boolean `checked` gives enabled when true and disabled when
false; else a `checked` attribute gives enabled; otherwise (also without a toggle) unknown.
A card class decides the status whatever the toggle is. -/
theorem getItemState_precedence :
    (∀ item : Element, getItemState item = firstRule (statusRules item))
    ∧ (∀ (item : Element) (root : List Element) (card : Element),
        item.shadowRoot = some root → querySelector root (.byId "card") = some card →
        (card.classList.contains "enabled" = true → getItemState item = some "enabled")
        ∧ (card.classList.contains "enabled" = false →
            card.classList.contains "disabled" = true →
            getItemState item = some "disabled")) := by
  refine ⟨?_, ?_⟩
  · intro item
    have htoggle : ∀ toggle : Element,
        (if toggle.getAttribute "aria-pressed" = some "true" then some "enabled"
          else if toggle.getAttribute "aria-pressed" = some "false" then some "disabled"
          else match toggle.checked with
            | some b => if b then some "enabled" else some "disabled"
            | none => if toggle.hasAttribute "checked" then some "enabled" else none)
        = firstRule
          [ (toggle.getAttribute "aria-pressed" == some "true", some "enabled"),
            (toggle.getAttribute "aria-pressed" == some "false", some "disabled"),
            (toggle.checked == some true, some "enabled"),
            (toggle.checked == some false, some "disabled"),
            (toggle.hasAttribute "checked", some "enabled") ] := by
      intro toggle
      generalize toggle.getAttribute "aria-pressed" = pressed
      generalize toggle.checked = checked
      generalize toggle.hasAttribute "checked" = has
      by_cases h1 : pressed = some "true"
      · simp [firstRule, h1]
      · by_cases h2 : pressed = some "false"
        · simp [firstRule, h2]
        · cases checked with
          | none => cases has <;> simp [firstRule, h1, h2]
          | some b => cases b <;> simp [firstRule, h1, h2]
    simp only [getItemState, statusRules]
    generalize item.shadowRoot = sr
    cases sr with
    | none => simp [firstRule]
    | some root =>
      simp only [Option.some_bind, Option.isNone_some]
      generalize querySelector root (.byId "card") = card
      generalize querySelector root (.byTagId "cr-toggle" "enableToggle") = toggle
      have hrest : (match toggle with
          | none => none
          | some toggle =>
            if toggle.getAttribute "aria-pressed" = some "true" then some "enabled"
            else if toggle.getAttribute "aria-pressed" = some "false" then some "disabled"
            else match toggle.checked with
              | some b => if b then some "enabled" else some "disabled"
              | none => if toggle.hasAttribute "checked" then some "enabled" else none)
          = firstRule
            [ (toggle.any (fun t => t.getAttribute "aria-pressed" == some "true"), some "enabled"),
              (toggle.any (fun t => t.getAttribute "aria-pressed" == some "false"),
                some "disabled"),
              (toggle.any (fun t => t.checked == some true), some "enabled"),
              (toggle.any (fun t => t.checked == some false), some "disabled"),
              (toggle.any (fun t => t.hasAttribute "checked"), some "enabled") ] := by
        cases toggle with
        | none => simp [firstRule]
        | some t => simpa using htoggle t
      cases card with
      | none =>
        simp only [Option.any_none]
        rw [hrest]
        simp [firstRule]
      | some c =>
        simp only [Option.any_some]
        generalize c.classList.contains "enabled" = c1
        generalize c.classList.contains "disabled" = c2
        cases c1 <;> cases c2 <;> simp only [hrest] <;> simp [firstRule]
  · intro item root card hsr hcard
    unfold getItemState
    simp only [hsr, hcard]
    refine ⟨fun h => ?_, fun h h' => ?_⟩
    · rw [if_pos h]
    · rw [if_neg (by rw [h]; exact Bool.false_ne_true), if_pos h']

/-! ## DOM locator -/

theorem findSome_append {α β : Type} (g : α → Option β) (l₁ l₂ : List α) :
    (l₁ ++ l₂).findSome? g = match l₁.findSome? g with
      | some b => some b
      | none => l₂.findSome? g := by
  induction l₁ with
  | nil => simp
  | cons a rest ih =>
    simp only [List.cons_append, List.findSome?_cons]
    cases g a with
    | some b => rfl
    | none => exact ih

theorem findInShadowRoot_eq (sel : Selector) (e : Element) :
    findInShadowRoot sel e.shadowRoot = findInShadowAt sel e := by
  unfold findInShadowAt
  cases e.shadowRoot with
  | none => rfl
  | some root => simp only [findInShadowRoot, findInShadow]

mutual
theorem findInShadowLoopAt_eq (sel : Selector) : ∀ e : Element,
    findInShadowLoopAt sel e = (e :: descendantsOf e).findSome? (findInShadowAt sel)
  | .mk t i c a ch tx cs sr => by
    have ih := findInShadowLoop_eq sel cs
    have hr := findInShadowRoot_eq sel (.mk t i c a ch tx cs sr)
    simp only [Element.shadowRoot] at hr
    rw [findInShadowLoopAt, hr, ih, List.findSome?_cons, descendantsOf]
    cases findInShadowAt sel (.mk t i c a ch tx cs sr) <;> rfl
theorem findInShadowLoop_eq (sel : Selector) : ∀ l : List Element,
    findInShadowLoop sel l = (descendants l).findSome? (findInShadowAt sel)
  | [] => by simp [findInShadowLoop, descendants]
  | e :: rest => by
    have h1 := findInShadowLoopAt_eq sel e
    have h2 := findInShadowLoop_eq sel rest
    rw [findInShadowLoop, h1, h2, descendants, ← List.cons_append, findSome_append]
    cases List.findSome? (findInShadowAt sel) (e :: descendantsOf e) <;> rfl
end

/-- The body of `findInShadow` as the source writes it: the direct match, else the first
`found` of the recursive calls on the shadow roots of `root.querySelectorAll('*')`. -/
theorem findInShadow_unfold (root : List Element) (sel : Selector) :
    findInShadow root sel = match querySelector root sel with
      | some direct => some direct
      | none => (querySelectorAll root .any).findSome? (findInShadowAt sel) := by
  have hall : querySelectorAll root .any = descendants root := by
    unfold querySelectorAll
    exact List.filter_eq_self.mpr (fun _ _ => rfl)
  rw [findInShadow, findInShadowLoop_eq, hall]

theorem querySelector_some {root : List Element} {sel : Selector} {found : Element}
    (h : querySelector root sel = some found) :
    found ∈ descendants root ∧ sel.test found = true :=
  ⟨List.mem_of_find?_eq_some h, @List.find?_some _ sel.test found _ h⟩

theorem querySelector_isSome {root : List Element} {sel : Selector} {e : Element}
    (he : e ∈ descendants root) (ht : sel.test e = true) :
    (querySelector root sel).isSome = true := by
  unfold querySelector
  rw [List.find?_isSome]
  exact ⟨e, he, ht⟩

mutual
theorem findInShadowLoopAt_sound (sel : Selector) (found : Element) : ∀ e : Element,
    findInShadowLoopAt sel e = some found →
    sel.test found = true ∧ ∃ host ∈ e :: descendantsOf e, ∃ shadow,
      host.shadowRoot = some shadow ∧ Within shadow found
  | .mk t i c a ch tx cs sr => by
    intro h
    rw [findInShadowLoopAt] at h
    cases hr : findInShadowRoot sel sr with
    | some f =>
      rw [hr] at h
      obtain ⟨shadow, hs, hw, ht⟩ := findInShadowRoot_sound sel f sr hr
      cases h
      exact ⟨ht, _, List.mem_cons_self _ _, shadow, hs, hw⟩
    | none =>
      rw [hr] at h
      obtain ⟨ht, host, hhost, shadow, hs, hw⟩ := findInShadowLoop_sound sel found cs h
      exact ⟨ht, host, List.mem_cons_of_mem _ (by rw [descendantsOf]; exact hhost), shadow, hs, hw⟩
theorem findInShadowRoot_sound (sel : Selector) (found : Element) :
    ∀ sr : Option (List Element), findInShadowRoot sel sr = some found →
    ∃ shadow, sr = some shadow ∧ Within shadow found ∧ sel.test found = true
  | none => by
    intro h
    rw [findInShadowRoot] at h
    cases h
  | some root => by
    intro h
    rw [findInShadowRoot] at h
    cases hq : querySelector root sel with
    | some direct =>
      rw [hq] at h
      cases h
      exact ⟨root, rfl, Within.own (querySelector_some hq).1, (querySelector_some hq).2⟩
    | none =>
      rw [hq] at h
      obtain ⟨ht, host, hhost, shadow, hs, hw⟩ := findInShadowLoop_sound sel found root h
      exact ⟨root, rfl, Within.nested hhost hs hw, ht⟩
theorem findInShadowLoop_sound (sel : Selector) (found : Element) : ∀ l : List Element,
    findInShadowLoop sel l = some found →
    sel.test found = true ∧ ∃ host ∈ descendants l, ∃ shadow,
      host.shadowRoot = some shadow ∧ Within shadow found
  | [] => by
    intro h
    rw [findInShadowLoop] at h
    cases h
  | e :: rest => by
    intro h
    rw [findInShadowLoop] at h
    cases he : findInShadowLoopAt sel e with
    | some f =>
      rw [he] at h
      obtain ⟨ht, host, hhost, shadow, hs, hw⟩ := findInShadowLoopAt_sound sel f e he
      cases h
      refine ⟨ht, host, ?_, shadow, hs, hw⟩
      rw [descendants, ← List.cons_append]
      exact List.mem_append_left _ hhost
    | none =>
      rw [he] at h
      obtain ⟨ht, host, hhost, shadow, hs, hw⟩ := findInShadowLoop_sound sel found rest h
      refine ⟨ht, host, ?_, shadow, hs, hw⟩
      rw [descendants, ← List.cons_append]
      exact List.mem_append_right _ hhost
end

theorem findInShadow_sound {root : List Element} {sel : Selector} {found : Element}
    (h : findInShadow root sel = some found) : Within root found ∧ sel.test found = true := by
  have h' : findInShadowRoot sel (some root) = some found := by
    rw [findInShadowRoot]; exact h
  obtain ⟨shadow, hs, hw, ht⟩ := findInShadowRoot_sound sel found (some root) h'
  cases hs
  exact ⟨hw, ht⟩

theorem findInShadow_complete {root : List Element} {sel : Selector} {e : Element}
    (hw : Within root e) (ht : sel.test e = true) : (findInShadow root sel).isSome = true := by
  induction hw with
  | own he =>
    have := querySelector_isSome he ht
    rw [findInShadow]
    cases hq : querySelector _ sel with
    | some d => rfl
    | none => rw [hq] at this; cases this
  | @nested root shadow host e hhost hs _ ih =>
    rw [findInShadow_unfold]
    cases hq : querySelector root sel with
    | some d => rfl
    | none =>
      have hall : querySelectorAll root .any = descendants root := by
        unfold querySelectorAll
        exact List.filter_eq_self.mpr (fun _ _ => rfl)
      simp only [hall]
      rw [List.findSome?_isSome_iff]
      refine ⟨host, hhost, ?_⟩
      simp only [findInShadowAt, hs]
      exact ih ht

/-- C10: `findInShadow(root, selector)` is total (it is defined by recursion on the finite
tree), what it returns matches the selector and lies in the root's own tree or in a shadow tree
nested at any depth beneath an element of the root, and it returns an element exactly when
such a matching element exists (`null` otherwise); `findItemList` returns the document-level
match when there is one, and otherwise the result of that search from the shadow root of the
first `extensions-manager` (`null` without a manager or without its shadow root). -/
theorem findInShadow_findItemList_spec :
    (∀ (root : List Element) (sel : Selector),
        (findInShadow root sel).isSome = true ↔ ∃ e, Within root e ∧ sel.test e = true)
    ∧ (∀ (root : List Element) (sel : Selector) (found : Element),
        findInShadow root sel = some found → Within root found ∧ sel.test found = true)
    ∧ (∀ (root : List Element) (sel : Selector),
        findInShadow root sel = none ↔ ¬ ∃ e, Within root e ∧ sel.test e = true)
    ∧ (∀ (document : List Element) (direct : Element),
        querySelector document (.byTag "extensions-item-list") = some direct →
        findItemList document = some direct)
    ∧ (∀ document : List Element,
        querySelector document (.byTag "extensions-item-list") = none →
        (∀ manager shadowRoot,
          querySelector document (.byTag "extensions-manager") = some manager →
          manager.shadowRoot = some shadowRoot →
          findItemList document = findInShadow shadowRoot (.byTag "extensions-item-list"))
        ∧ (∀ manager, querySelector document (.byTag "extensions-manager") = some manager →
            manager.shadowRoot = none → findItemList document = none)
        ∧ (querySelector document (.byTag "extensions-manager") = none →
            findItemList document = none))
    ∧ (findItemList sampleDocument).map Element.id = some "items-list" := by
  have hiff : ∀ (root : List Element) (sel : Selector),
      (findInShadow root sel).isSome = true ↔ ∃ e, Within root e ∧ sel.test e = true := by
    intro root sel
    constructor
    · intro h
      obtain ⟨found, hf⟩ := Option.isSome_iff_exists.mp h
      exact ⟨found, findInShadow_sound hf⟩
    · rintro ⟨e, hw, ht⟩
      exact findInShadow_complete hw ht
  refine ⟨hiff, fun root sel found h => findInShadow_sound h, ?_, ?_, ?_, by decide⟩
  · intro root sel
    rw [← hiff, Option.not_isSome_iff_eq_none]
  · intro document direct h
    simp [findItemList, h]
  · intro document h
    refine ⟨?_, ?_, ?_⟩
    · intro manager shadowRoot hm hs
      simp [findItemList, h, hm, hs]
    · intro manager hm hs
      simp [findItemList, h, hm, hs]
    · intro hm
      simp [findItemList, h, hm]

/-! ## Persistence adapter -/

theorem loadFilter_of_getItem {ls : Storage} {value : Option String}
    (h : ls.getItem STORAGE_KEY = .ok value) :
    loadFilter ls
      = .ok (if FILTERS.any (fun f => some f.1 == value) then value else none) := by
  unfold loadFilter
  rw [h]
  simp only [bind, Except.bind]
  split <;> rfl

theorem getItem_setItem {ls ls' : Storage} {key value : String}
    (hread : ls.readRaises = false) (h : ls.setItem key value = .ok ls') :
    ls'.getItem key = .ok (some value) := by
  unfold Storage.setItem at h
  split at h
  · cases h
  · cases h
    simp [Storage.getItem, hread, lookupKey_setKey]

/-- C5: on a storage that raises on no access, `saveFilter(c)` followed by `loadFilter()`
returns `c` for each of `all`, `enabled`, `disabled`; `loadFilter()` returns `null` when the
key holds another string (also right after that string was written) and when the key is
missing. -/
theorem saveFilter_loadFilter_roundtrip (ls : Storage) (hread : ls.readRaises = false)
    (hwrite : ls.writeRaises = false) :
    (∀ c ∈ ["all", "enabled", "disabled"],
        ∃ ls', saveFilter ls c = .ok ls' ∧ loadFilter ls' = .ok (some c))
    ∧ (∀ s, s ∉ ["all", "enabled", "disabled"] →
        (ls.getItem STORAGE_KEY = .ok (some s) → loadFilter ls = .ok none)
        ∧ ∃ ls', ls.setItem STORAGE_KEY s = .ok ls' ∧ loadFilter ls' = .ok none)
    ∧ (ls.getItem STORAGE_KEY = .ok none → loadFilter ls = .ok none) := by
  have hset : ∀ v, ls.setItem STORAGE_KEY v
      = .ok { ls with entries := setKey STORAGE_KEY v ls.entries } := by
    intro v
    simp [Storage.setItem, hwrite]
  have hinvalid : ∀ s, s ∉ ["all", "enabled", "disabled"] →
      FILTERS.any (fun f => some f.1 == some s) = false := by
    intro s hs
    simp only [List.mem_cons, List.mem_singleton, List.not_mem_nil, or_false, not_or] at hs
    simp only [FILTERS, List.any_cons, List.any_nil, Bool.or_false, Bool.or_eq_false_iff]
    refine ⟨?_, ?_, ?_⟩ <;> simp <;> intro h <;> simp [← h] at hs
  refine ⟨?_, ?_, ?_⟩
  · intro c hc
    refine ⟨_, by rw [saveFilter, hset c]; rfl, ?_⟩
    rw [loadFilter_of_getItem (getItem_setItem hread (hset c))]
    simp only [List.mem_cons, List.mem_singleton, List.not_mem_nil, or_false] at hc
    rcases hc with h | h | h <;> subst h <;> exact congrArg Except.ok (by decide)
  · intro s hs
    refine ⟨?_, _, hset s, ?_⟩
    · intro h
      rw [loadFilter_of_getItem h, hinvalid s hs]
      rfl
    · rw [loadFilter_of_getItem (getItem_setItem hread (hset s)), hinvalid s hs]
      rfl
  · intro h
    rw [loadFilter_of_getItem h]
    rfl

/-- The empty working storage: C5 applies to it. -/
theorem saveFilter_loadFilter_roundtrip_witness :
    (∀ c ∈ ["all", "enabled", "disabled"],
        ∃ ls', saveFilter sampleStorage c = .ok ls' ∧ loadFilter ls' = .ok (some c))
    ∧ (∀ s, s ∉ ["all", "enabled", "disabled"] →
        (sampleStorage.getItem STORAGE_KEY = .ok (some s) → loadFilter sampleStorage = .ok none)
        ∧ ∃ ls', sampleStorage.setItem STORAGE_KEY s = .ok ls' ∧ loadFilter ls' = .ok none)
    ∧ (sampleStorage.getItem STORAGE_KEY = .ok none → loadFilter sampleStorage = .ok none) :=
  saveFilter_loadFilter_roundtrip sampleStorage rfl rfl


/-! ## Lemmas on queries and in-place writes -/

theorem querySelectorAll_any (root : List Element) :
    querySelectorAll root .any = descendants root := by
  unfold querySelectorAll
  exact List.filter_eq_self.mpr (fun _ _ => rfl)

theorem isSome_querySelector (root : List Element) (sel : Selector) :
    (querySelector root sel).isSome = (descendants root).any sel.test := by
  unfold querySelector
  rw [Bool.eq_iff_iff, List.find?_isSome, List.any_eq_true]

theorem querySelector_eq_none {root : List Element} {sel : Selector} :
    querySelector root sel = none ↔ (descendants root).countP sel.test = 0 := by
  unfold querySelector
  rw [List.find?_eq_none, List.countP_eq_zero]

theorem ignoresChildren_test (sel : Selector) : IgnoresChildren sel.test :=
  fun e cs => test_withChildren sel e cs

theorem countP_map_view (q : Element → Bool) (hq : IgnoresChildren q) (l : List Element) :
    (l.map Element.view).countP q = l.countP q := by
  rw [List.countP_map]
  congr 1
  funext e
  exact hq e []

theorem countP_forEachMatch (sel : Selector) (f : Element → Element) (hf : KeepsChildren f)
    (q : Element → Bool) (hq : IgnoresChildren q) (hqf : ∀ e, q (f e) = q e)
    (root : List Element) :
    (descendants (forEachMatch sel f root)).countP q = (descendants root).countP q := by
  rw [← countP_map_view q hq, view_forEachMatch sel f hf, List.countP_map]
  congr 1
  funext e
  simp only [Function.comp, applyIf]
  split
  · rw [Element.view, hq, hqf]
  · rw [Element.view, hq]

theorem querySelector_forEachMatch_isSome (filter : String) (sel : Selector)
    (root : List Element) :
    (querySelector (forEachMatch (.byTag "extensions-item") (markItem filter) root) sel).isSome
      = (querySelector root sel).isSome := by
  have h := countP_forEachMatch (.byTag "extensions-item") (markItem filter)
    (markItem_keepsChildren filter) sel.test (ignoresChildren_test sel)
    (fun e => test_markItem sel filter e) root
  cases h1 : querySelector root sel with
  | none =>
    rw [querySelector_eq_none] at h1
    rw [h1, ← querySelector_eq_none] at h
    rw [h]
  | some x =>
    cases h2 : querySelector (forEachMatch (.byTag "extensions-item") (markItem filter) root)
      sel with
    | some y => rfl
    | none =>
      rw [querySelector_eq_none] at h2
      rw [h2] at h
      rw [querySelector_eq_none.mpr h.symm] at h1
      cases h1

mutual
theorem replaceFirstIn_none (sel : Selector) (f : Element → Element) : ∀ e : Element,
    replaceFirstIn sel f e = none → (descendantsOf e).find? sel.test = none
  | .mk t i c a ch tx cs sr => by
    intro h
    rw [replaceFirstIn] at h
    rw [descendantsOf]
    cases hr : replaceFirst sel f cs with
    | none => exact replaceFirst_none sel f cs hr
    | some cs' => rw [hr] at h; cases h
theorem replaceFirst_none (sel : Selector) (f : Element → Element) : ∀ l : List Element,
    replaceFirst sel f l = none → (descendants l).find? sel.test = none
  | [] => by intro _; rfl
  | e :: rest => by
    intro h
    rw [replaceFirst] at h
    by_cases ht : sel.test e = true
    · rw [if_pos ht] at h; cases h
    · rw [if_neg ht] at h
      cases h1 : replaceFirstIn sel f e with
      | some e' => rw [h1] at h; cases h
      | none =>
        rw [h1] at h
        cases h2 : replaceFirst sel f rest with
        | some rest' => rw [h2] at h; cases h
        | none =>
          have i1 := replaceFirstIn_none sel f e h1
          have i2 := replaceFirst_none sel f rest h2
          rw [descendants, List.find?_cons]
          simp only [Bool.not_eq_true] at ht
          rw [ht, List.find?_append, i1, i2]
          rfl
end

mutual
theorem replaceFirstIn_some (sel : Selector) (f : Element → Element) : ∀ (e e' : Element),
    replaceFirstIn sel f e = some e' →
    (∃ cs', e' = e.withChildren cs') ∧ ReplacedIn sel f (descendantsOf e) (descendantsOf e')
  | .mk t i c a ch tx cs sr, e' => by
    intro h
    rw [replaceFirstIn] at h
    cases hr : replaceFirst sel f cs with
    | none => rw [hr] at h; cases h
    | some cs' =>
      rw [hr] at h
      cases h
      refine ⟨⟨cs', rfl⟩, ?_⟩
      rw [descendantsOf, descendantsOf]
      exact replaceFirst_some sel f cs cs' hr
theorem replaceFirst_some (sel : Selector) (f : Element → Element) : ∀ (l l' : List Element),
    replaceFirst sel f l = some l' → ReplacedIn sel f (descendants l) (descendants l')
  | [], l' => by
    intro h
    rw [replaceFirst] at h
    cases h
  | e :: rest, l' => by
    intro h
    rw [replaceFirst] at h
    by_cases ht : sel.test e = true
    · rw [if_pos ht] at h
      cases h
      refine ⟨e, ?_, ?_, ?_⟩
      · rw [descendants, List.find?_cons, ht]
      · intro y hy
        rw [descendants, ← List.cons_append]
        exact List.mem_append_left _ hy
      · intro q _
        simp only [descendants, List.countP_cons, List.countP_append]
        omega
    · rw [if_neg ht] at h
      have ht' : sel.test e = false := by simpa using ht
      cases h1 : replaceFirstIn sel f e with
      | some e' =>
        rw [h1] at h
        cases h
        obtain ⟨⟨cs', hcs⟩, x, hx, hmem, hcount⟩ := replaceFirstIn_some sel f e e' h1
        refine ⟨x, ?_, ?_, ?_⟩
        · rw [descendants, List.find?_cons, ht', List.find?_append, hx]
          rfl
        · intro y hy
          rw [descendants]
          exact List.mem_cons_of_mem _ (List.mem_append_left _ (hmem y hy))
        · intro q hq
          have hc := hcount q hq
          have hqe : q e' = q e := by rw [hcs]; exact hq e cs'
          simp only [descendants, List.countP_cons, List.countP_append, hqe] at hc ⊢
          omega
      | none =>
        rw [h1] at h
        cases h2 : replaceFirst sel f rest with
        | none => rw [h2] at h; cases h
        | some rest' =>
          rw [h2] at h
          cases h
          have hnone := replaceFirstIn_none sel f e h1
          obtain ⟨x, hx, hmem, hcount⟩ := replaceFirst_some sel f rest rest' h2
          refine ⟨x, ?_, ?_, ?_⟩
          · rw [descendants, List.find?_cons, ht', List.find?_append, hnone]
            exact hx
          · intro y hy
            rw [descendants]
            exact List.mem_cons_of_mem _ (List.mem_append_right _ (hmem y hy))
          · intro q hq
            have hc := hcount q hq
            simp only [descendants, List.countP_cons, List.countP_append] at hc ⊢
            omega
end

mutual
theorem replaceFirstIn_spliced (sel : Selector) (f : Element → Element) :
    ∀ (e e' : Element), replaceFirstIn sel f e = some e' →
    e'.view = e.view ∧ Spliced sel f (descendantsOf e) (descendantsOf e')
  | .mk t i c a ch tx cs sr, e' => by
    intro h
    rw [replaceFirstIn] at h
    cases hr : replaceFirst sel f cs with
    | none => rw [hr] at h; cases h
    | some cs' =>
      rw [hr] at h
      cases h
      refine ⟨rfl, ?_⟩
      rw [descendantsOf, descendantsOf]
      exact replaceFirst_spliced sel f cs cs' hr
theorem replaceFirst_spliced (sel : Selector) (f : Element → Element) :
    ∀ (l l' : List Element), replaceFirst sel f l = some l' →
    Spliced sel f (descendants l) (descendants l')
  | [], l' => by
    intro h
    rw [replaceFirst] at h
    cases h
  | e :: rest, l' => by
    intro h
    rw [replaceFirst] at h
    by_cases ht : sel.test e = true
    · rw [if_pos ht] at h
      cases h
      refine ⟨e, [], (descendants rest).map Element.view, ?_, ?_, ?_⟩
      · rw [descendants, List.find?_cons, ht]
      · simp [descendants]
      · simp [descendants]
    · rw [if_neg ht] at h
      have ht' : sel.test e = false := by simpa using ht
      cases h1 : replaceFirstIn sel f e with
      | some e' =>
        rw [h1] at h
        cases h
        obtain ⟨hview, x, pre, post, hx, hb, ha⟩ := replaceFirstIn_spliced sel f e e' h1
        refine ⟨x, e.view :: pre, post ++ (descendants rest).map Element.view, ?_, ?_, ?_⟩
        · rw [descendants, List.find?_cons, ht', List.find?_append, hx]
          rfl
        · rw [descendants, List.map_cons, List.map_append, hb]
          simp
        · rw [descendants, List.map_cons, List.map_append, ha, hview]
          simp
      | none =>
        rw [h1] at h
        cases h2 : replaceFirst sel f rest with
        | none => rw [h2] at h; cases h
        | some rest' =>
          rw [h2] at h
          cases h
          have hnone := replaceFirstIn_none sel f e h1
          obtain ⟨x, pre, post, hx, hb, ha⟩ := replaceFirst_spliced sel f rest rest' h2
          refine ⟨x, e.view :: (descendantsOf e).map Element.view ++ pre, post, ?_, ?_, ?_⟩
          · rw [descendants, List.find?_cons, ht', List.find?_append, hnone]
            exact hx
          · rw [descendants, List.map_cons, List.map_append, hb]
            simp
          · rw [descendants, List.map_cons, List.map_append, ha]
            simp
end

theorem filter_map_view (sel : Selector) (l : List Element) :
    (l.filter sel.test).map Element.view = (l.map Element.view).filter sel.test := by
  rw [List.filter_map]
  congr 1
  apply List.filter_congr
  intro e _
  exact (test_view sel e).symm

/-! ## Lemmas on the UI builder -/

theorem countId_eq (root : List Element) (id : String) :
    countId root id = (descendants root).countP (Selector.byId id).test := by
  rw [countId, querySelectorAll, List.countP_eq_length_filter]

theorem getElementById_isSome_iff (root : List Element) (id : String) :
    (getElementById root id).isSome = true ↔ 0 < countId root id := by
  rw [getElementById, countId_eq, isSome_querySelector, List.any_eq_true, List.countP_pos_iff]

theorem getElementById_eq_none_iff (root : List Element) (id : String) :
    getElementById root id = none ↔ countId root id = 0 := by
  rw [getElementById, countId_eq, querySelector_eq_none]

theorem ensureStyles_eq (root : List Element) :
    ensureStyles root
      = if (getElementById root STYLE_ID).isSome then root else root ++ [styleBlock] := rfl

theorem descendants_singleton_leaf (e : Element) (h : e.children = []) :
    descendants [e] = [e] := by
  cases e with
  | mk t i c a ch tx cs sr =>
    simp only [Element.children] at h
    subst h
    simp [descendants, descendantsOf]

theorem descendants_styleBlock : descendants [styleBlock] = [styleBlock] :=
  descendants_singleton_leaf styleBlock rfl

theorem countP_ensureStyles (q : Element → Bool) (root : List Element) :
    (descendants (ensureStyles root)).countP q
      = (descendants root).countP q
        + (if (getElementById root STYLE_ID).isSome then 0
            else if q styleBlock then 1 else 0) := by
  rw [ensureStyles_eq]
  split
  · rfl
  · rw [descendants_append, descendants_styleBlock, List.countP_append]
    simp [List.countP_cons]

theorem test_styleBlock_style : (Selector.byId STYLE_ID).test styleBlock = true := by
  simp [Selector.test, styleBlock, createElement, Element.setId, Element.setTextContent,
    Element.id]

theorem countId_ensureStyles_style (root : List Element) :
    countId (ensureStyles root) STYLE_ID = max 1 (countId root STYLE_ID) := by
  rw [countId_eq, countP_ensureStyles, ← countId_eq, test_styleBlock_style]
  cases h : getElementById root STYLE_ID with
  | none =>
    rw [getElementById_eq_none_iff] at h
    simp [h]
  | some x =>
    have : 0 < countId root STYLE_ID := by
      rw [← getElementById_isSome_iff, h]; rfl
    simp only [Option.isSome_some, if_true]
    omega

theorem ensureStyles_idem (root : List Element) :
    ensureStyles (ensureStyles root) = ensureStyles root := by
  have h : (getElementById (ensureStyles root) STYLE_ID).isSome = true := by
    rw [getElementById_isSome_iff, countId_ensureStyles_style]
    omega
  rw [ensureStyles_eq (ensureStyles root), if_pos h]

theorem countId_ensureStyles_other (root : List Element) (id : String) (h : id ≠ STYLE_ID) :
    countId (ensureStyles root) id = countId root id := by
  rw [countId_eq, countP_ensureStyles, ← countId_eq]
  have : (Selector.byId id).test styleBlock = false := by
    simp only [Selector.test, styleBlock, createElement, Element.setId, Element.setTextContent,
      Element.id, beq_eq_false_iff_ne, ne_eq]
    exact fun h' => h h'.symm
  rw [this]
  simp

theorem mem_descendants_of_mem {l : List Element} {e : Element} (h : e ∈ l) :
    e ∈ descendants l := by
  induction l with
  | nil => cases h
  | cons a rest ih =>
    rw [descendants]
    rcases List.mem_cons.mp h with h | h
    · subst h; exact List.mem_cons_self _ _
    · exact List.mem_cons_of_mem _ (List.mem_append_right _ (ih h))

theorem descendantsOf_eq (e : Element) : descendantsOf e = descendants e.children := by
  cases e; rw [descendantsOf, Element.children]

theorem insertBefore_ok {parent node parent' : Element} {reference : Option NodeRef}
    (h : parent.insertBefore node reference = .ok parent') :
    ∃ pre post, parent.children = pre ++ post
      ∧ parent' = parent.withChildren (pre ++ [node] ++ post) := by
  unfold Element.insertBefore at h
  split at h
  · cases h
    exact ⟨parent.children, [], by simp, by simp [Element.appendChild]⟩
  · cases h
    exact ⟨_, _, (List.take_append_drop _ _).symm, rfl⟩
  · cases h

theorem createFilterBar_build (s : State) :
    (FILTERS.foldl
        (fun (acc : Element × List (String × Element)) filter =>
          (acc.1.appendChild (barButton filter), setKey filter.1 (barButton filter) acc.2))
        ((((createElement "div").setId BAR_ID).setClassName ["items-container"]).appendChild
          barLabel, s.buttons))
      = (.mk "div" BAR_ID ["items-container"] [] none ""
          ([barLabel] ++ FILTERS.map barButton) none,
        FILTERS.foldl (fun acc filter => setKey filter.1 (barButton filter) acc) s.buttons) := by
  simp [FILTERS, List.foldl, createElement, Element.setId, Element.setClassName,
    Element.appendChild, Element.withChildren, Element.children]

/-- The three ways a call of `createFilterBar` ends. -/
theorem createFilterBar_cases (root : List Element) (s : State) :
    (createFilterBar root s = ⟨none, root, s⟩
        ∧ ((getElementById root BAR_ID).isSome = true
          ∨ querySelector root (.byId "extensions-section") = none))
    ∨ ((∃ e, createFilterBar root s = ⟨some e, root, s.withBar⟩)
        ∧ getElementById root BAR_ID = none)
    ∨ ((createFilterBar root s).thrown = none
        ∧ (createFilterBar root s).state = s.withBar
        ∧ getElementById root BAR_ID = none
        ∧ (querySelector root (.byId "extensions-section")).isSome = true
        ∧ ∀ q : Element → Bool, IgnoresChildren q →
            (descendants (createFilterBar root s).shadowRoot).countP q
              = (descendants root).countP q + (filterBar :: descendantsOf filterBar).countP q) := by
  by_cases hbar : (getElementById root BAR_ID).isSome = true
  · left
    exact ⟨by simp [createFilterBar, hbar], Or.inl hbar⟩
  · have hbar' : getElementById root BAR_ID = none := by
      simpa using hbar
    cases hsec : querySelector root (.byId "extensions-section") with
    | none =>
      left
      exact ⟨by simp [createFilterBar, hbar, hsec], Or.inr rfl⟩
    | some sec =>
      right
      have hstep : createFilterBar root s
          = match sec.insertBefore filterBar
              (match querySelectorRef (.byClass "section-header") sec.children 0 with
                | some h => some h
                | none => sec.firstChildRef) with
            | .error e => ⟨some e, root, s.withBar⟩
            | .ok section' =>
              match replaceFirst (.byId "extensions-section") (fun _ => section') root with
              | some shadowRoot' => ⟨none, shadowRoot', s.withBar⟩
              | none => ⟨none, root, s.withBar⟩ := by
        simp only [createFilterBar, hbar, hsec, createFilterBar_build]
        rfl
      rw [hstep]
      cases hins : sec.insertBefore filterBar
          (match querySelectorRef (.byClass "section-header") sec.children 0 with
            | some h => some h
            | none => sec.firstChildRef) with
      | error e => exact Or.inl ⟨⟨e, rfl⟩, hbar'⟩
      | ok section' =>
        right
        obtain ⟨pre, post, hchildren, hsection'⟩ := insertBefore_ok hins
        dsimp only
        cases hrep : replaceFirst (.byId "extensions-section") (fun _ => section') root with
        | none =>
          have := replaceFirst_none _ _ root hrep
          rw [querySelector, this] at hsec
          cases hsec
        | some root' =>
          refine ⟨rfl, rfl, hbar', rfl, ?_⟩
          intro q hq
          obtain ⟨x, hx, -, hcount⟩ := replaceFirst_some _ _ root root' hrep
          rw [querySelector, hx] at hsec
          cases hsec
          have hc := hcount q hq
          have hq' : q section' = q sec := by rw [hsection']; exact hq sec _
          have hd' : descendantsOf section'
              = descendants pre ++ (filterBar :: descendantsOf filterBar) ++ descendants post := by
            rw [hsection', descendantsOf_withChildren, descendants_append, descendants_append]
            simp [descendants]
          have hd : descendantsOf sec = descendants pre ++ descendants post := by
            rw [descendantsOf_eq, hchildren, descendants_append]
          simp only [List.countP_cons, List.countP_append, hq', hd', hd] at hc ⊢
          omega

/-- The tree after `createFilterBar`: as it was, or with the bar put among the children of the
first `#extensions-section`. -/
theorem createFilterBar_shadowRoot (root : List Element) (s : State) :
    (createFilterBar root s).shadowRoot = root
    ∨ ∃ (sec : Element) (pre post : List Element),
        querySelector root (.byId "extensions-section") = some sec
        ∧ sec.children = pre ++ post
        ∧ replaceFirst (.byId "extensions-section")
            (fun _ => sec.withChildren (pre ++ [filterBar] ++ post)) root
          = some (createFilterBar root s).shadowRoot := by
  by_cases hbar : (getElementById root BAR_ID).isSome = true
  · left
    simp [createFilterBar, hbar]
  · cases hsec : querySelector root (.byId "extensions-section") with
    | none =>
      left
      simp [createFilterBar, hbar, hsec]
    | some sec =>
      have hstep : createFilterBar root s
          = match sec.insertBefore filterBar
              (match querySelectorRef (.byClass "section-header") sec.children 0 with
                | some h => some h
                | none => sec.firstChildRef) with
            | .error e => ⟨some e, root, s.withBar⟩
            | .ok section' =>
              match replaceFirst (.byId "extensions-section") (fun _ => section') root with
              | some shadowRoot' => ⟨none, shadowRoot', s.withBar⟩
              | none => ⟨none, root, s.withBar⟩ := by
        simp only [createFilterBar, hbar, hsec, createFilterBar_build]
        rfl
      rw [hstep]
      cases hins : sec.insertBefore filterBar
          (match querySelectorRef (.byClass "section-header") sec.children 0 with
            | some h => some h
            | none => sec.firstChildRef) with
      | error e => exact Or.inl rfl
      | ok section' =>
        obtain ⟨pre, post, hchildren, hsection'⟩ := insertBefore_ok hins
        dsimp only
        cases hrep : replaceFirst (.byId "extensions-section") (fun _ => section') root with
        | none => exact Or.inl rfl
        | some root' =>
          right
          refine ⟨sec, pre, post, rfl, hchildren, ?_⟩
          rw [← hsection']
          exact hrep

/-- The matches of a selector that nothing of the bar matches are the same, seen without
children, before and after `createFilterBar`. -/
theorem querySelectorAll_createFilterBar (sel : Selector)
    (hsel : (filterBar :: descendantsOf filterBar).filter sel.test = [])
    (root : List Element) (s : State) :
    (querySelectorAll (createFilterBar root s).shadowRoot sel).map Element.view
      = (querySelectorAll root sel).map Element.view := by
  rcases createFilterBar_shadowRoot root s with h | ⟨sec, pre, post, hsec, hchildren, hrep⟩
  · rw [h]
  · obtain ⟨x, before, after, hx, hb, ha⟩ := replaceFirst_spliced _ _ _ _ hrep
    rw [querySelector, hx] at hsec
    cases hsec
    dsimp only at ha
    have hbar : ((filterBar :: descendantsOf filterBar).map Element.view).filter sel.test
        = [] := by
      rw [← filter_map_view, hsel]
      rfl
    have hnew : (sec.withChildren (pre ++ [filterBar] ++ post)
          :: descendantsOf (sec.withChildren (pre ++ [filterBar] ++ post))).map Element.view
        = [sec.view] ++ (descendants pre).map Element.view
          ++ (filterBar :: descendantsOf filterBar).map Element.view
          ++ (descendants post).map Element.view := by
      rw [descendantsOf_withChildren, descendants_append, descendants_append]
      simp [descendants, Element.view, withChildren_withChildren]
    have hold : (sec :: descendantsOf sec).map Element.view
        = [sec.view] ++ (descendants pre).map Element.view
          ++ (descendants post).map Element.view := by
      rw [descendantsOf_eq, hchildren, descendants_append]
      simp
    unfold querySelectorAll
    rw [filter_map_view, filter_map_view, ha, hb, hnew, hold]
    simp only [List.filter_append, hbar, List.append_nil]

theorem querySelectorAll_ensureStyles (sel : Selector) (hsel : sel.test styleBlock = false)
    (root : List Element) :
    querySelectorAll (ensureStyles root) sel = querySelectorAll root sel := by
  rw [ensureStyles_eq]
  split
  · rfl
  · unfold querySelectorAll
    rw [descendants_append, descendants_styleBlock, List.filter_append]
    simp [hsel]

theorem countP_filterBar_bar :
    (filterBar :: descendantsOf filterBar).countP (Selector.byId BAR_ID).test = 1 := by
  decide

theorem countP_filterBar_other (id : String) (h : id ≠ BAR_ID) (h' : id ≠ "") :
    (filterBar :: descendantsOf filterBar).countP (Selector.byId id).test = 0 := by
  rw [List.countP_eq_zero]
  intro e he
  have hid : e.id = BAR_ID ∨ e.id = "" := by
    have : ∀ x ∈ filterBar :: descendantsOf filterBar, x.id = BAR_ID ∨ x.id = "" := by decide
    exact this e he
  simp only [Selector.test, beq_iff_eq]
  rcases hid with h1 | h1 <;> rw [h1] <;> intro h2 <;> simp [← h2] at h h'

theorem createFilterBarTwice_eq (root : List Element) (s : State) :
    createFilterBarTwice root s = createFilterBar root s := by
  unfold createFilterBarTwice
  rcases createFilterBar_cases root s with ⟨h, -⟩ | ⟨⟨e, h⟩, -⟩ | ⟨hthrown, -, -, -, hcount⟩
  · rw [h]
    simp only
    exact h
  · rw [h]
  · have hbar : (getElementById (createFilterBar root s).shadowRoot BAR_ID).isSome = true := by
      rw [getElementById_isSome_iff, countId_eq, hcount _ (ignoresChildren_test _),
        countP_filterBar_bar]
      omega
    simp only [hthrown]
    generalize createFilterBar root s = r at hthrown hbar
    cases r with
    | mk thrown root' s' =>
      simp only at hthrown hbar
      subst hthrown
      simp [createFilterBar, hbar]

theorem countId_createFilterBar_bar (root : List Element) (s : State) :
    countId (createFilterBar root s).shadowRoot BAR_ID ≤ max 1 (countId root BAR_ID) := by
  rcases createFilterBar_cases root s with ⟨h, -⟩ | ⟨⟨e, h⟩, -⟩ | ⟨-, -, hnone, -, hcount⟩
  · rw [h]; simp only; omega
  · rw [h]; simp only; omega
  · rw [getElementById_eq_none_iff] at hnone
    rw [countId_eq, hcount _ (ignoresChildren_test _), countP_filterBar_bar, ← countId_eq, hnone]
    omega

theorem countId_createFilterBar_other (root : List Element) (s : State) (id : String)
    (h : id ≠ BAR_ID) (h' : id ≠ "") :
    countId (createFilterBar root s).shadowRoot id = countId root id := by
  rcases createFilterBar_cases root s with ⟨h1, -⟩ | ⟨⟨e, h1⟩, -⟩ | ⟨-, -, -, -, hcount⟩
  · rw [h1]
  · rw [h1]
  · rw [countId_eq, hcount _ (ignoresChildren_test _), countP_filterBar_other id h h',
      ← countId_eq]
    rfl

/-! ## Lemmas on repeated passes -/

theorem setKey_idem {α : Type} (k : String) (v : α) (l : List (String × α)) :
    setKey k v (setKey k v l) = setKey k v l := by
  have hhas : hasKey k (setKey k v l) = true :=
    hasKey_of_lookupKey (lookupKey_setKey k v l)
  have hmap : ∀ a : List (String × α),
      (a.map (fun p => if p.1 == k then (k, v) else p)).map
          (fun p => if p.1 == k then (k, v) else p)
        = a.map (fun p => if p.1 == k then (k, v) else p) := by
    intro a
    rw [List.map_map]
    apply List.map_congr_left
    intro p _
    simp only [Function.comp]
    by_cases hp : (p.1 == k) = true
    · simp [hp]
    · simp [hp]
  conv_lhs => rw [setKey, if_pos hhas]
  unfold setKey
  split
  · exact hmap l
  · rename_i h
    have hl : l.map (fun p => if p.1 == k then (k, v) else p) = l := by
      conv_rhs => rw [← List.map_id l]
      apply List.map_congr_left
      intro p hp
      have : ¬ (p.1 == k) = true := by
        intro hk
        exact h (List.any_eq_true.mpr ⟨p, hp, hk⟩)
      simp [this]
    rw [List.map_append, hl]
    simp

theorem removeKey_idem {α : Type} (k : String) (l : List (String × α)) :
    removeKey k (removeKey k l) = removeKey k l := by
  simp [removeKey, List.filter_filter]

theorem setAttribute_idem (e : Element) (k v : String) :
    (e.setAttribute k v).setAttribute k v = e.setAttribute k v := by
  cases e
  simp only [Element.setAttribute, Element.withAttrs, Element.attrs, setKey_idem]

theorem markItem_idem (filter : String) (e : Element) :
    markItem filter (markItem filter e) = markItem filter e := by
  have hst : getItemState (markItem filter e) = getItemState e :=
    getItemState_congr (shadowRoot_markItem filter e)
  conv_lhs => rw [markItem, hst]
  by_cases h : shows filter (getItemState e) = true
  · rw [if_pos h, markItem, if_pos h]
    cases e
    simp only [Element.removeAttribute, Element.withAttrs, Element.attrs, removeKey_idem]
  · rw [if_neg h, markItem, if_neg h, setAttribute_idem]

theorem forEachMatch_markItem_idem (filter : String) (root : List Element) :
    forEachMatch (.byTag "extensions-item") (markItem filter)
        (forEachMatch (.byTag "extensions-item") (markItem filter) root)
      = forEachMatch (.byTag "extensions-item") (markItem filter) root :=
  forEachMatch_idem _ _ (markItem_keepsChildren filter) (markItem_idem filter)
    (fun e => test_markItem _ filter e) root

theorem setTextContent_idem (e : Element) (tx : String) :
    (e.setTextContent tx).setTextContent tx = e.setTextContent tx := by
  cases e; rfl

theorem updateCounts_idem (s : State) (a b c d : Nat) :
    updateCounts (updateCounts s a b c d) a b c d = updateCounts s a b c d := by
  unfold updateCounts
  cases h : s.countEl with
  | none => simp [h]
  | some el => simp [setTextContent_idem]

theorem applyFilter_filter (s : State) : (applyFilter s).filter = s.filter := by
  unfold applyFilter updateCounts
  split
  · rfl
  · dsimp only
    split <;> rfl

theorem applyFilter_buttons (s : State) : (applyFilter s).buttons = s.buttons := by
  unfold applyFilter updateCounts
  split
  · rfl
  · dsimp only
    split <;> rfl

theorem applyFilter_none {s : State} (h : s.shadowRoot = none) : applyFilter s = s := by
  simp [applyFilter, h]

theorem applyFilter_some {s : State} {root : List Element} (h : s.shadowRoot = some root) :
    applyFilter s
      = updateCounts
          { s with shadowRoot := some (forEachMatch (.byTag "extensions-item") (markItem s.filter) root) }
          (s.items.countP (fun e => shows s.filter (getItemState e)))
          s.items.length
          (s.items.countP (fun e => getItemState e == some "enabled"))
          (s.items.countP (fun e => getItemState e == some "disabled")) := by
  simp [applyFilter, h, foldl_tally, State.items]

theorem applyFilter_rafId (s : State) : (applyFilter s).rafId = s.rafId := by
  unfold applyFilter updateCounts
  split
  · rfl
  · dsimp only
    split <;> rfl

theorem applyFilter_countEl {s : State} {root : List Element} (h : s.shadowRoot = some root) :
    (applyFilter s).countEl = s.countEl.map (fun el => el.setTextContent s.summary) := by
  rw [applyFilter_some h]
  unfold updateCounts
  dsimp only
  cases s.countEl <;> rfl

theorem summary_applyFilter (s : State) : (applyFilter s).summary = s.summary := by
  have hst := status_items_applyFilter s
  have hlen : (applyFilter s).items.length = s.items.length := by
    simpa using congrArg List.length hst
  have hcount : ∀ q : Option String → Bool,
      (applyFilter s).items.countP (fun e => q (getItemState e))
        = s.items.countP (fun e => q (getItemState e)) := by
    intro q
    have := congrArg (List.countP q) hst
    simpa [List.countP_map, Function.comp] using this
  unfold State.summary
  rw [applyFilter_filter, hlen, hcount (fun st => shows s.filter st),
    hcount (fun st => st == some "enabled"), hcount (fun st => st == some "disabled")]

theorem State.ext_fields {a b : State} (h1 : a.filter = b.filter)
    (h2 : a.shadowRoot = b.shadowRoot) (h3 : a.buttons = b.buttons)
    (h4 : a.countEl = b.countEl) (h5 : a.rafId = b.rafId) : a = b := by
  cases a; cases b
  simp only at h1 h2 h3 h4 h5
  subst h1 h2 h3 h4 h5
  rfl

theorem applyFilter_idem (s : State) : applyFilter (applyFilter s) = applyFilter s := by
  cases h : s.shadowRoot with
  | none => rw [applyFilter_none h, applyFilter_none h]
  | some root =>
    have hroot := applyFilter_shadowRoot s root h
    apply State.ext_fields
    · rw [applyFilter_filter]
    · rw [applyFilter_shadowRoot _ _ hroot, applyFilter_filter, forEachMatch_markItem_idem,
        hroot]
    · rw [applyFilter_buttons]
    · rw [applyFilter_countEl hroot, summary_applyFilter, applyFilter_countEl h]
      cases s.countEl with
      | none => rfl
      | some el => simp [setTextContent_idem]
    · rw [applyFilter_rafId]

theorem updateButtons_idem (s : State) : updateButtons (updateButtons s) = updateButtons s := by
  unfold updateButtons
  simp only [List.map_map]
  congr 1
  apply List.map_congr_left
  intro p _
  simp only [Function.comp, setAttribute_idem]

theorem loadFilter_ok (ls : Storage) : ∃ saved, loadFilter ls = .ok saved := by
  unfold loadFilter
  cases ls.getItem STORAGE_KEY with
  | error e => exact ⟨none, rfl⟩
  | ok value =>
    simp only [bind, Except.bind]
    split <;> exact ⟨_, rfl⟩

theorem saveFilter_ok (ls : Storage) (value : String) : ∃ ls', saveFilter ls value = .ok ls' := by
  unfold saveFilter
  cases ls.setItem STORAGE_KEY value with
  | error e => exact ⟨ls, rfl⟩
  | ok ls' => exact ⟨ls', rfl⟩

/-! ## Lemmas on the bootstrap -/

theorem init_no_shadowRoot {list : Element} (pg : Page) (h : list.shadowRoot = none) :
    init list pg = ⟨none, list, pg⟩ := by
  simp [init, h]

theorem init_bar_present {list : Element} {root : List Element} (pg : Page)
    (h : list.shadowRoot = some root) (hbar : (getElementById root BAR_ID).isSome = true) :
    init list pg = ⟨none, list, pg⟩ := by
  simp [init, h, hbar]

theorem init_thrown {list : Element} {root : List Element} (pg : Page)
    (h : list.shadowRoot = some root) (hbar : getElementById root BAR_ID = none)
    (e : DOMException)
    (hthrown : (createFilterBar (ensureStyles root)
      { pg.state with shadowRoot := some root }).thrown = some e) :
    (init list pg).thrown = some e := by
  simp [init, h, hbar, hthrown]

theorem init_proceeds (list : Element) (root : List Element) (pg : Page)
    (h : list.shadowRoot = some root) (hbar : getElementById root BAR_ID = none)
    (hthrown : (createFilterBar (ensureStyles root)
      { pg.state with shadowRoot := some root }).thrown = none)
    (saved : Option String) (hsaved : loadFilter pg.localStorage = .ok saved) :
    init list pg
      = ⟨none,
          list.withShadowRoot (initState (createFilterBar (ensureStyles root)
            { pg.state with shadowRoot := some root }) saved).shadowRoot,
          attachListeners { pg with state := initState (createFilterBar (ensureStyles root)
            { pg.state with shadowRoot := some root }) saved }⟩ := by
  simp only [init, h, hbar, hthrown, hsaved, Option.isSome_none, Bool.false_eq_true, if_false]
  rfl

theorem chooseFilter_shadowRoot (s : State) (saved : Option String) :
    (chooseFilter s saved).shadowRoot = s.shadowRoot := by
  unfold chooseFilter
  split
  · split <;> rfl
  · rfl

theorem chooseFilter_fixed {s s' : State} {saved : Option String}
    (h : s'.filter = (chooseFilter s saved).filter) : chooseFilter s' saved = s' := by
  unfold chooseFilter at h ⊢
  split
  · rename_i value
    dsimp only at h
    split
    · rename_i hv
      rw [if_pos hv] at h
      cases s'
      simp only at h
      subst h
      rfl
    · rfl
  · rfl

theorem updateButtons_fixed {s s' : State} (hf : s'.filter = s.filter)
    (hb : s'.buttons = (updateButtons s).buttons) : updateButtons s' = s' := by
  have h := updateButtons_idem s
  have h' : (updateButtons (updateButtons s)).buttons = (updateButtons s).buttons := by rw [h]
  apply State.ext_fields <;> try rfl
  show (updateButtons s').buttons = s'.buttons
  rw [hb]
  simp only [updateButtons] at h' ⊢
  rw [hb, hf]
  exact h'

theorem initState_shadowRoot (r : BarResult) (saved : Option String) :
    (initState r saved).shadowRoot
      = some (forEachMatch (.byTag "extensions-item")
          (markItem (initState r saved).filter) r.shadowRoot) := by
  unfold initState
  rw [applyFilter_filter]
  exact applyFilter_shadowRoot _ _ (by
    show (updateButtons _).shadowRoot = _
    simp only [updateButtons, chooseFilter_shadowRoot])

theorem withShadowRoot_shadowRoot (e : Element) (sr : Option (List Element)) :
    (e.withShadowRoot sr).shadowRoot = sr := by
  cases e; rfl

theorem withShadowRoot_withShadowRoot (e : Element) (sr sr' : Option (List Element)) :
    (e.withShadowRoot sr).withShadowRoot sr' = e.withShadowRoot sr' := by
  cases e; rfl

theorem withShadowRoot_self (e : Element) : e.withShadowRoot e.shadowRoot = e := by
  cases e; rfl

theorem initState_fixed (r : BarResult) (saved : Option String) (root : List Element)
    (hroot : (initState r saved).shadowRoot = some root) :
    initState ⟨none, root, initState r saved⟩ saved = initState r saved := by
  have hself : { initState r saved with shadowRoot := some root } = initState r saved := by
    rw [← hroot]
  have hfilter : (initState r saved).filter
      = (chooseFilter { r.state with shadowRoot := some r.shadowRoot } saved).filter := by
    unfold initState
    rw [applyFilter_filter]
    rfl
  have hbuttons : (initState r saved).buttons
      = (updateButtons (chooseFilter { r.state with shadowRoot := some r.shadowRoot }
          saved)).buttons := by
    unfold initState
    rw [applyFilter_buttons]
  conv_lhs => rw [initState]
  dsimp only
  rw [hself, chooseFilter_fixed hfilter, updateButtons_fixed hfilter hbuttons]
  unfold initState
  exact applyFilter_idem _

theorem initTwice_of_thrown {list : Element} {pg : Page} {e : DOMException}
    (h : (init list pg).thrown = some e) : initTwice list pg = init list pg := by
  simp [initTwice, h]

theorem initTwice_of_normal {list : Element} {pg : Page} (h : (init list pg).thrown = none) :
    initTwice list pg = init (init list pg).list (init list pg).page := by
  simp [initTwice, h]

/-- The second of two calls of `init` in sequence: it changes neither the list, nor the record
`state`, nor the storage; it registers one more click listener and one more observer exactly
when the first call ran to its end without a bar in the tree. -/
theorem initTwice_spec (list : Element) (pg : Page) :
    (initTwice list pg).thrown = (init list pg).thrown
    ∧ (initTwice list pg).list = (init list pg).list
    ∧ (initTwice list pg).page.state = (init list pg).page.state
    ∧ (initTwice list pg).page.localStorage = (init list pg).page.localStorage
    ∧ (initTwice list pg).page.clickListeners = (init list pg).page.clickListeners
        + (if (init list pg).thrown.isNone && (init list pg).list.lacksBar then 1 else 0)
    ∧ (initTwice list pg).page.observers = (init list pg).page.observers
        + (if (init list pg).thrown.isNone && (init list pg).list.lacksBar then 1 else 0) := by
  cases h : list.shadowRoot with
  | none =>
    have h1 := init_no_shadowRoot pg h
    have h2 : initTwice list pg = init list pg := by
      rw [initTwice_of_normal (by rw [h1]), h1]
      exact h1
    rw [h2, h1]
    simp [Element.lacksBar, h]
  | some root =>
    by_cases hbar : (getElementById root BAR_ID).isSome = true
    · have h1 := init_bar_present pg h hbar
      have h2 : initTwice list pg = init list pg := by
        rw [initTwice_of_normal (by rw [h1]), h1]
        exact h1
      have hne : getElementById root BAR_ID ≠ none := Option.isSome_iff_ne_none.mp hbar
      rw [h2, h1]
      simp [Element.lacksBar, h, hne]
    · have hbar' : getElementById root BAR_ID = none := by simpa using hbar
      cases hthrown : (createFilterBar (ensureStyles root)
          { pg.state with shadowRoot := some root }).thrown with
      | some e =>
        have h1 := init_thrown pg h hbar' _ hthrown
        rw [initTwice_of_thrown h1, h1]
        simp
      | none =>
        obtain ⟨saved, hsaved⟩ := loadFilter_ok pg.localStorage
        have h1 := init_proceeds _ _ pg h hbar' hthrown _ hsaved
        have hnormal : (init list pg).thrown = none := by rw [h1]
        rw [initTwice_of_normal hnormal, h1]
        dsimp only
        generalize hr : createFilterBar (ensureStyles root)
          { pg.state with shadowRoot := some root } = r at hthrown
        have hF := initState_shadowRoot r saved
        generalize hrootF : forEachMatch (.byTag "extensions-item")
          (markItem (initState r saved).filter) r.shadowRoot = rootF at hF
        have hlist1 : (list.withShadowRoot (initState r saved).shadowRoot).shadowRoot
            = some rootF := by
          rw [withShadowRoot_shadowRoot, hF]
        by_cases hbarF : (getElementById rootF BAR_ID).isSome = true
        · have hne : getElementById rootF BAR_ID ≠ none := Option.isSome_iff_ne_none.mp hbarF
          rw [init_bar_present _ hlist1 hbarF]
          simp [Element.lacksBar, hlist1, hne]
        · have hbarF' : getElementById rootF BAR_ID = none := by simpa using hbarF
          -- no bar was built: `createFilterBar` found no section
          have hbar1 : (getElementById r.shadowRoot BAR_ID).isSome = false := by
            have := querySelector_forEachMatch_isSome (initState r saved).filter
              (.byId BAR_ID) r.shadowRoot
            rw [hrootF] at this
            rw [getElementById, ← this]
            simpa [getElementById] using hbarF
          have hcase : r = ⟨none, ensureStyles root, { pg.state with shadowRoot := some root }⟩
              ∧ querySelector (ensureStyles root) (.byId "extensions-section") = none := by
            rcases createFilterBar_cases (ensureStyles root)
                { pg.state with shadowRoot := some root } with
              ⟨hc, hor⟩ | ⟨⟨e, hc⟩, -⟩ | ⟨-, -, -, -, hcount⟩
            · rw [hr] at hc
              refine ⟨hc, ?_⟩
              rcases hor with hb | hs
              · rw [hc] at hbar1
                rw [hb] at hbar1
                cases hbar1
              · exact hs
            · rw [hr] at hc
              rw [hc] at hthrown
              cases hthrown
            · rw [hr] at hcount
              have hpos : (getElementById r.shadowRoot BAR_ID).isSome = true := by
                rw [getElementById_isSome_iff, countId_eq, hcount _ (ignoresChildren_test _),
                  countP_filterBar_bar]
                omega
              rw [hpos] at hbar1
              cases hbar1
          obtain ⟨hreq, hsection⟩ := hcase
          have hrsr : r.shadowRoot = ensureStyles root := by rw [hreq]
          have hstyleF : (getElementById rootF STYLE_ID).isSome = true := by
            have := querySelector_forEachMatch_isSome (initState r saved).filter
              (.byId STYLE_ID) r.shadowRoot
            rw [hrootF] at this
            rw [getElementById, this, hrsr]
            have hpos : (getElementById (ensureStyles root) STYLE_ID).isSome = true := by
              rw [getElementById_isSome_iff, countId_ensureStyles_style]
              omega
            exact hpos
          have hsectionF : querySelector rootF (.byId "extensions-section") = none := by
            have := querySelector_forEachMatch_isSome (initState r saved).filter
              (.byId "extensions-section") r.shadowRoot
            rw [hrootF, hrsr, hsection] at this
            simpa using this
          have hensure : ensureStyles rootF = rootF := by
            rw [ensureStyles_eq, if_pos hstyleF]
          have hself : ({ initState r saved with shadowRoot := some rootF } : State)
              = initState r saved := by
            rw [← hF]
          have hcreate : createFilterBar rootF (initState r saved)
              = ⟨none, rootF, initState r saved⟩ := by
            simp [createFilterBar, hbarF', hsectionF]
          have h2 := init_proceeds
            (list.withShadowRoot (initState r saved).shadowRoot) rootF
            (attachListeners { pg with state := initState r saved }) hlist1 hbarF'
            (by
              show (createFilterBar (ensureStyles rootF)
                { initState r saved with shadowRoot := some rootF }).thrown = none
              rw [hensure, hself, hcreate])
            saved hsaved
          rw [h2]
          have hst : initState (createFilterBar (ensureStyles rootF)
              { (attachListeners { pg with state := initState r saved }).state
                with shadowRoot := some rootF }) saved = initState r saved := by
            show initState (createFilterBar (ensureStyles rootF)
              { initState r saved with shadowRoot := some rootF }) saved = initState r saved
            rw [hensure, hself, hcreate]
            exact initState_fixed r saved rootF hF
          rw [hst]
          simp [Element.lacksBar, hlist1, hbarF', withShadowRoot_withShadowRoot, attachListeners]

theorem countId_forEachMatch (filter : String) (root : List Element) (id : String) :
    countId (forEachMatch (.byTag "extensions-item") (markItem filter) root) id
      = countId root id := by
  rw [countId_eq, countId_eq]
  exact countP_forEachMatch _ _ (markItem_keepsChildren filter) _ (ignoresChildren_test _)
    (fun e => test_markItem _ filter e) root

/-- The shadow tree of the list after `init`, in each of the ways `init` ends. -/
theorem init_list_shadowRoot {list : Element} {root : List Element} (pg : Page)
    (h : list.shadowRoot = some root) :
    (init list pg).list.shadowRoot = some root
    ∨ (init list pg).list.shadowRoot = some (createFilterBar (ensureStyles root)
        { pg.state with shadowRoot := some root }).shadowRoot
    ∨ ∃ filter, (init list pg).list.shadowRoot
        = some (forEachMatch (.byTag "extensions-item") (markItem filter)
            (createFilterBar (ensureStyles root)
              { pg.state with shadowRoot := some root }).shadowRoot) := by
  by_cases hbar : (getElementById root BAR_ID).isSome = true
  · left
    rw [init_bar_present pg h hbar]
    exact h
  · have hbar' : getElementById root BAR_ID = none := by simpa using hbar
    cases hthrown : (createFilterBar (ensureStyles root)
        { pg.state with shadowRoot := some root }).thrown with
    | some e =>
      right; left
      simp only [init, h, hbar, hthrown]
      exact withShadowRoot_shadowRoot _ _
    | none =>
      right; right
      obtain ⟨saved, hsaved⟩ := loadFilter_ok pg.localStorage
      rw [init_proceeds _ _ pg h hbar' hthrown _ hsaved]
      exact ⟨_, by rw [withShadowRoot_shadowRoot]; exact initState_shadowRoot _ _⟩

theorem countId_init {list : Element} {root root' : List Element} (pg : Page)
    (h : list.shadowRoot = some root) (h' : (init list pg).list.shadowRoot = some root') :
    countId root' STYLE_ID ≤ max 1 (countId root STYLE_ID)
    ∧ countId root' BAR_ID ≤ max 1 (countId root BAR_ID) := by
  have hstyle := countId_createFilterBar_other (ensureStyles root)
    { pg.state with shadowRoot := some root } STYLE_ID (by decide) (by decide)
  have hbar := countId_createFilterBar_bar (ensureStyles root)
    { pg.state with shadowRoot := some root }
  rw [countId_ensureStyles_style] at hstyle
  rw [countId_ensureStyles_other root BAR_ID (by decide)] at hbar
  rcases init_list_shadowRoot pg h with h1 | h1 | ⟨filter, h1⟩ <;> rw [h1] at h' <;>
    cases h'
  · constructor <;> omega
  · rw [hstyle]
    exact ⟨le_refl _, hbar⟩
  · rw [countId_forEachMatch, countId_forEachMatch, hstyle]
    exact ⟨le_refl _, hbar⟩

/-! ## UI builder and bootstrap called twice -/

/-- C8, as the code has it: a second call of `ensureStyles`, of `createFilterBar` or of `init`
in sequence leaves the tree, the record `state` and the storage as the first call left them;
the calls add at most one element with the id of the style block and at most one with the id
of the bar to a tree that had none, and without `#extensions-section` `createFilterBar`
changes nothing.  A second `init` registers one more click listener and one more observer
exactly when the first ran to its end and left no bar in the tree. -/
theorem builder_twice (root : List Element) (s : State) (list : Element) (pg : Page) :
    (ensureStyles (ensureStyles root) = ensureStyles root
      ∧ countId (ensureStyles root) STYLE_ID = max 1 (countId root STYLE_ID))
    ∧ (createFilterBarTwice root s = createFilterBar root s
      ∧ countId (createFilterBar root s).shadowRoot BAR_ID ≤ max 1 (countId root BAR_ID)
      ∧ (querySelector root (.byId "extensions-section") = none →
          createFilterBar root s = ⟨none, root, s⟩))
    ∧ ((initTwice list pg).thrown = (init list pg).thrown
      ∧ (initTwice list pg).list = (init list pg).list
      ∧ (initTwice list pg).page.state = (init list pg).page.state
      ∧ (initTwice list pg).page.localStorage = (init list pg).page.localStorage
      ∧ (∀ before after, list.shadowRoot = some before →
          (initTwice list pg).list.shadowRoot = some after →
          countId after STYLE_ID ≤ max 1 (countId before STYLE_ID)
          ∧ countId after BAR_ID ≤ max 1 (countId before BAR_ID))
      ∧ (initTwice list pg).page.clickListeners = (init list pg).page.clickListeners
          + (if (init list pg).thrown.isNone && (init list pg).list.lacksBar then 1 else 0)
      ∧ (initTwice list pg).page.observers = (init list pg).page.observers
          + (if (init list pg).thrown.isNone && (init list pg).list.lacksBar then 1 else 0)) := by
  obtain ⟨h1, h2, h3, h4, h5, h6⟩ := initTwice_spec list pg
  refine ⟨⟨ensureStyles_idem root, countId_ensureStyles_style root⟩,
    ⟨createFilterBarTwice_eq root s, countId_createFilterBar_bar root s, ?_⟩,
    ⟨h1, h2, h3, h4, ?_, h5, h6⟩⟩
  · intro hsection
    rcases createFilterBar_cases root s with ⟨h, -⟩ | ⟨⟨e, h⟩, hbar⟩ | ⟨-, -, -, hsome, -⟩
    · exact h
    · simp [createFilterBar, hbar, hsection]
    · rw [hsection] at hsome
      cases hsome
  · intro before after hbefore hafter
    rw [h2] at hafter
    exact countId_init pg hbefore hafter

/-- A list without `#extensions-section`: the first `init` runs to its end and registers one
click listener and one observer, the second registers one more of each. -/
theorem init_twice_adds_listeners :
    (bareList.shadowRoot.bind
        (fun root => querySelector root (.byId "extensions-section"))).isSome = false
    ∧ (init bareList (Page.initial sampleStorage)).thrown = none
    ∧ (init bareList (Page.initial sampleStorage)).page.clickListeners = 1
    ∧ (init bareList (Page.initial sampleStorage)).page.observers = 1
    ∧ (initTwice bareList (Page.initial sampleStorage)).page.clickListeners = 2
    ∧ (initTwice bareList (Page.initial sampleStorage)).page.observers = 2 := by
  decide

/-! ## Bootstrap with a persisted filter -/

theorem createFilterBar_state (root : List Element) (s : State) :
    (createFilterBar root s).state = s ∨ (createFilterBar root s).state = s.withBar := by
  rcases createFilterBar_cases root s with ⟨h, -⟩ | ⟨⟨e, h⟩, -⟩ | ⟨-, h, -⟩
  · left; rw [h]
  · right; rw [h]
  · right; exact h

theorem createFilterBar_filter (root : List Element) (s : State) :
    (createFilterBar root s).state.filter = s.filter := by
  rcases createFilterBar_state root s with h | h <;> rw [h]
  rfl

theorem loadFilter_valid {ls : Storage} {v : String} (hv : v ∈ ["all", "enabled", "disabled"])
    (h : ls.getItem STORAGE_KEY = .ok (some v)) : loadFilter ls = .ok (some v) := by
  rw [loadFilter_of_getItem h]
  simp only [List.mem_cons, List.mem_singleton, List.not_mem_nil, or_false] at hv
  rcases hv with h | h | h <;> subst h <;> exact congrArg Except.ok (by decide)

theorem loadFilter_invalid {ls : Storage}
    (h : ∀ w ∈ ["all", "enabled", "disabled"], ls.getItem STORAGE_KEY ≠ .ok (some w)) :
    loadFilter ls = .ok none := by
  cases hg : ls.getItem STORAGE_KEY with
  | error e =>
    unfold loadFilter
    rw [hg]
    rfl
  | ok value =>
    rw [loadFilter_of_getItem hg]
    cases value with
    | none => rfl
    | some w =>
      have hw : w ∉ ["all", "enabled", "disabled"] := fun hmem => h w hmem hg
      have : FILTERS.any (fun f => some f.1 == some w) = false := by
        simp only [List.mem_cons, List.mem_singleton, List.not_mem_nil, or_false, not_or] at hw
        simp only [FILTERS, List.any_cons, List.any_nil, Bool.or_false, Bool.or_eq_false_iff]
        refine ⟨?_, ?_, ?_⟩ <;> simp <;> intro h' <;> simp [← h'] at hw
      rw [this]
      rfl

theorem pressed_updateButtons (s : State) :
    ∀ entry ∈ (updateButtons s).buttons,
      entry.2.getAttribute "aria-pressed"
        = some (if entry.1 = s.filter then "true" else "false") := by
  intro entry hentry
  simp only [updateButtons, List.mem_map] at hentry
  obtain ⟨old, -, rfl⟩ := hentry
  simp only [getAttribute_setAttribute, beq_iff_eq]

theorem keys_updateButtons (s : State) :
    (updateButtons s).buttons.map Prod.fst = s.buttons.map Prod.fst := by
  simp [updateButtons, List.map_map, Function.comp]

theorem no_item_in_filterBar :
    (filterBar :: descendantsOf filterBar).filter (Selector.byTag "extensions-item").test
      = [] := by
  rw [List.filter_eq_nil_iff]
  have : ∀ x ∈ filterBar :: descendantsOf filterBar,
      (Selector.byTag "extensions-item").test x = false := by decide
  intro x hx
  rw [this x hx]
  exact Bool.false_ne_true

/-- The items the first pass of `init` leaves, seen without children: the items of the list
before `init`, in order, each with its marker as the loop body sets it under the filter in
force. -/
theorem view_items_initState (root : List Element) (s : State) (saved : Option String) :
    (initState (createFilterBar (ensureStyles root) s) saved).items.map Element.view
      = (querySelectorAll root (.byTag "extensions-item")).map
          (fun x => (markItem (initState (createFilterBar (ensureStyles root) s) saved).filter
            x).view) := by
  have hview : ∀ (filter : String) (l : List Element),
      l.map (fun x => (markItem filter x).view) = (l.map Element.view).map (markItem filter) := by
    intro filter l
    rw [List.map_map]
    apply List.map_congr_left
    intro x _
    exact (markItem_keepsChildren filter x []).symm
  have hsr := initState_shadowRoot (createFilterBar (ensureStyles root) s) saved
  rw [State.items, hsr]
  dsimp only
  rw [view_items_forEachMatch, hview, hview,
    querySelectorAll_createFilterBar _ no_item_in_filterBar,
    querySelectorAll_ensureStyles _ (by decide)]

/-- C9, as the code has it: at bootstrap, when `init` gets past its guards and runs to its end,
with `v` the valid persisted value, or `all` when the persisted value is missing, invalid or
unreadable: the active filter is `v`; every button the script holds has `aria-pressed="true"`
when it is the button for `v` and `"false"` otherwise; the buttons are those for `all`,
`enabled`, `disabled` when the tree has `#extensions-section`, and there is no button when it
has none; and the first pass has marked the classified items according to `v` and left the
unclassified ones unmarked: the items after `init`, which are those of the list's shadow tree,
are the items the list had before `init`, in the same order, with the same classification and
changed in nothing but the marker, and each carries the marker exactly when the loop body of
`applyFilter` does not show its status under `v`. -/
theorem init_applies_saved (list : Element) (root : List Element) (ls : Storage) (v : String)
    (hroot : list.shadowRoot = some root)
    (hbar : (getElementById root BAR_ID).isSome = false)
    (hnormal : (init list (Page.initial ls)).thrown = none)
    (hv : (v ∈ ["all", "enabled", "disabled"] ∧ ls.getItem STORAGE_KEY = .ok (some v))
      ∨ (v = "all"
        ∧ ∀ w ∈ ["all", "enabled", "disabled"], ls.getItem STORAGE_KEY ≠ .ok (some w))) :
    (init list (Page.initial ls)).page.state.filter = v
    ∧ (∀ entry ∈ (init list (Page.initial ls)).page.state.buttons,
        entry.2.getAttribute "aria-pressed" = some (if entry.1 = v then "true" else "false"))
    ∧ ((querySelector root (.byId "extensions-section")).isSome = true →
        (init list (Page.initial ls)).page.state.buttons.map Prod.fst
          = ["all", "enabled", "disabled"])
    ∧ ((querySelector root (.byId "extensions-section")).isSome = false →
        (init list (Page.initial ls)).page.state.buttons = [])
    ∧ (∀ item ∈ (init list (Page.initial ls)).page.state.items,
        ∀ status ∈ ["enabled", "disabled"], getItemState item = some status →
        (item.hasAttribute HIDDEN_ATTR = false ↔ (v = "all" ∨ v = status))
        ∧ (¬ (v = "all" ∨ v = status) → item.getAttribute HIDDEN_ATTR = some "true"))
    ∧ (∀ item ∈ (init list (Page.initial ls)).page.state.items,
        getItemState item = none → item.hasAttribute HIDDEN_ATTR = false)
    ∧ (init list (Page.initial ls)).page.state.items.map getItemState
        = (querySelectorAll root (.byTag "extensions-item")).map getItemState
    ∧ (init list (Page.initial ls)).page.state.items.map
          (fun item => item.hasAttribute HIDDEN_ATTR)
        = (querySelectorAll root (.byTag "extensions-item")).map
            (fun item => !(shows v (getItemState item)))
    ∧ (init list (Page.initial ls)).page.state.items.map
          (fun item => (item.removeAttribute HIDDEN_ATTR).view)
        = (querySelectorAll root (.byTag "extensions-item")).map
            (fun item => (item.removeAttribute HIDDEN_ATTR).view)
    ∧ (init list (Page.initial ls)).list.shadowRoot
        = (init list (Page.initial ls)).page.state.shadowRoot := by
  have hbar' : getElementById root BAR_ID = none := by
    cases h : getElementById root BAR_ID with
    | none => rfl
    | some x => rw [h] at hbar; cases hbar
  have hvalid : v ∈ ["all", "enabled", "disabled"] := by
    rcases hv with ⟨h, -⟩ | ⟨h, -⟩
    · exact h
    · subst h; decide
  have hne : v ≠ "" := by
    simp only [List.mem_cons, List.mem_singleton, List.not_mem_nil, or_false] at hvalid
    rcases hvalid with h | h | h <;> subst h <;> decide
  -- the run of `init`
  generalize hr : createFilterBar (ensureStyles root)
    { (Page.initial ls).state with shadowRoot := some root } = r
  have hthrown : r.thrown = none := by
    cases ht : r.thrown with
    | none => rfl
    | some e =>
      have := init_thrown (Page.initial ls) hroot hbar' e (by rw [hr]; exact ht)
      rw [hnormal] at this
      cases this
  obtain ⟨saved, hsaved⟩ := loadFilter_ok ls
  have hinit := init_proceeds list root (Page.initial ls) hroot hbar'
    (by rw [hr]; exact hthrown) saved hsaved
  rw [hr] at hinit
  have hstate : (init list (Page.initial ls)).page.state = initState r saved := by
    rw [hinit]; rfl
  have hrfilter : r.state.filter = "all" := by
    rw [← hr, createFilterBar_filter]; rfl
  have hchosen : (chooseFilter { r.state with shadowRoot := some r.shadowRoot } saved).filter
      = v := by
    rcases hv with ⟨h1, h2⟩ | ⟨h1, h2⟩
    · have := loadFilter_valid h1 h2
      rw [hsaved] at this
      cases this
      simp [chooseFilter, hne]
    · have := loadFilter_invalid h2
      rw [hsaved] at this
      cases this
      simp [chooseFilter, hrfilter, h1]
  have hbuttons : (initState r saved).buttons
      = (updateButtons (chooseFilter { r.state with shadowRoot := some r.shadowRoot }
          saved)).buttons := by
    unfold initState
    rw [applyFilter_buttons]
  have hkeys : (initState r saved).buttons.map Prod.fst = r.state.buttons.map Prod.fst := by
    rw [hbuttons, keys_updateButtons]
    unfold chooseFilter
    split
    · split <;> rfl
    · rfl
  have hcounts : countId (ensureStyles root) BAR_ID = 0 := by
    rw [countId_ensureStyles_other root BAR_ID (by decide), ← getElementById_eq_none_iff]
    exact hbar'
  have hsec : (querySelector (ensureStyles root) (.byId "extensions-section")).isSome
      = (querySelector root (.byId "extensions-section")).isSome := by
    have h1 := countId_ensureStyles_other root "extensions-section" (by decide)
    rw [countId_eq, countId_eq] at h1
    rw [isSome_querySelector, isSome_querySelector, Bool.eq_iff_iff, List.any_eq_true,
      List.any_eq_true, ← List.countP_pos_iff, ← List.countP_pos_iff, h1]
  have hlistroot : (init list (Page.initial ls)).list.shadowRoot
      = (initState r saved).shadowRoot := by
    rw [hinit]
    exact withShadowRoot_shadowRoot _ _
  have hFfilter : (initState r saved).filter = v := by
    unfold initState
    rw [applyFilter_filter]
    exact hchosen
  have hitems := view_items_initState root
    { (Page.initial ls).state with shadowRoot := some root } saved
  rw [hr, hFfilter] at hitems
  obtain ⟨hsts, hmarks, hsame⟩ := items_of_marked_views hitems
  rw [hlistroot, hstate]
  refine ⟨?_, ?_, ?_, ?_, ?_, ?_, hsts, hmarks, hsame, rfl⟩
  · unfold initState
    rw [applyFilter_filter]
    exact hchosen
  · intro entry hentry
    rw [hbuttons] at hentry
    rw [← hchosen]
    exact pressed_updateButtons _ entry hentry
  · intro hsection
    rw [hkeys]
    rcases createFilterBar_cases (ensureStyles root)
        { (Page.initial ls).state with shadowRoot := some root } with
      ⟨-, hb | hs⟩ | ⟨⟨e, hc⟩, -⟩ | ⟨-, hst, -⟩
    · rw [getElementById_isSome_iff, hcounts] at hb
      exact absurd hb (by decide)
    · rw [hs] at hsec
      rw [hsection] at hsec
      cases hsec
    · rw [hr] at hc
      rw [hc] at hthrown
      cases hthrown
    · rw [hr] at hst
      rw [hst]
      rfl
  · intro hsection
    have hnone : querySelector (ensureStyles root) (.byId "extensions-section") = none := by
      cases h : querySelector (ensureStyles root) (.byId "extensions-section") with
      | none => rfl
      | some x => rw [h, hsection] at hsec; cases hsec
    have hrs : r.state = { (Page.initial ls).state with shadowRoot := some root } := by
      rw [← hr]
      have hb : getElementById (ensureStyles root) BAR_ID = none := by
        rw [getElementById_eq_none_iff]; exact hcounts
      simp [createFilterBar, hb, hnone]
    have hnil : (initState r saved).buttons.map Prod.fst = [] := by
      rw [hkeys, hrs]
      rfl
    exact List.map_eq_nil_iff.mp hnil
  · intro item hitem status hstatus hst
    obtain ⟨hhas, hattr⟩ := marker_of_item _ hitem
    have hF : (updateButtons (chooseFilter { r.state with shadowRoot := some r.shadowRoot }
        saved)).filter = v := hchosen
    rw [hF, hst] at hhas hattr
    have hshow : shows v (some status) = true ↔ (v = "all" ∨ v = status) := by
      simp only [List.mem_cons, List.mem_singleton, List.not_mem_nil, or_false]
        at hvalid hstatus
      rcases hvalid with h | h | h <;> rcases hstatus with h' | h' <;> subst h h' <;> decide
    refine ⟨?_, ?_⟩
    · rw [hhas, ← hshow]
      cases shows v (some status) <;> simp
    · intro hnot
      apply hattr
      rw [← Bool.not_eq_true, hshow]
      exact hnot
  · intro item hitem hst
    rw [(marker_of_item _ hitem).1, hst]
    simp [shows]

/-- The sample list with the persisted filter `enabled`: C9 applies to it. -/
theorem init_applies_saved_witness :
    (init sampleList (Page.initial enabledStorage)).page.state.filter = "enabled"
    ∧ (init sampleList (Page.initial enabledStorage)).page.state.buttons.map
        (fun entry => (entry.1, entry.2.getAttribute "aria-pressed"))
      = [("all", some "false"), ("enabled", some "true"), ("disabled", some "false")]
    ∧ (init sampleList (Page.initial enabledStorage)).page.state.items.map
        (fun item => item.hasAttribute HIDDEN_ATTR) = [false, true, false] := by
  have h := init_applies_saved sampleList sampleRoot enabledStorage "enabled" rfl
    (by decide) (by decide) (Or.inl ⟨by decide, rfl⟩)
  exact ⟨h.1, by decide, by decide⟩

/-- A list without `#extensions-section` and the persisted filter `enabled`: `init` runs to its
end, the active filter is `enabled`, and the script holds no button, so none is pressed. -/
theorem init_without_section_no_button :
    (bareList.shadowRoot.bind
        (fun root => querySelector root (.byId "extensions-section"))).isSome = false
    ∧ (init bareList (Page.initial enabledStorage)).thrown = none
    ∧ (init bareList (Page.initial enabledStorage)).page.state.filter = "enabled"
    ∧ (init bareList (Page.initial enabledStorage)).page.state.buttons.length = 0
    ∧ ((init bareList (Page.initial enabledStorage)).page.state.buttons.filter
        (fun entry => entry.2.getAttribute "aria-pressed" == some "true")).length = 0
    ∧ (lookupKey "enabled"
        (init bareList (Page.initial enabledStorage)).page.state.buttons).isSome = false := by
  decide

/-! ## Storage failures -/

theorem init_filter_of_unreadable (ls : Storage) (hread : ls.readRaises = true)
    (list : Element) : (init list (Page.initial ls)).page.state.filter = "all" := by
  cases h : list.shadowRoot with
  | none => rw [init_no_shadowRoot _ h]; rfl
  | some root =>
    by_cases hbar : (getElementById root BAR_ID).isSome = true
    · rw [init_bar_present _ h hbar]; rfl
    · have hbar' : getElementById root BAR_ID = none := by simpa using hbar
      have hload : loadFilter ls = .ok none := by
        unfold loadFilter Storage.getItem
        rw [hread]
        rfl
      have hf := createFilterBar_filter (ensureStyles root)
        { (Page.initial ls).state with shadowRoot := some root }
      cases hthrown : (createFilterBar (ensureStyles root)
          { (Page.initial ls).state with shadowRoot := some root }).thrown with
      | some e =>
        simp only [init, h, hbar, hthrown]
        exact hf
      | none =>
        rw [init_proceeds _ _ _ h hbar' hthrown _ hload]
        show (initState _ none).filter = "all"
        unfold initState
        rw [applyFilter_filter]
        exact hf

/-- C6: `loadFilter` and `saveFilter` always return normally; when `getItem` raises,
`loadFilter` returns `null`; when `setItem` raises, `saveFilter` returns and leaves the storage
as it was; the record `state` after a click on a filter button is the same whatever the
storage does; and `init` on a storage that cannot be read leaves the default filter `all`. -/
theorem storage_failure_swallowed (ls : Storage) :
    (∃ saved, loadFilter ls = .ok saved)
    ∧ (∀ value, ∃ ls', saveFilter ls value = .ok ls')
    ∧ (ls.readRaises = true → loadFilter ls = .ok none)
    ∧ (ls.writeRaises = true → ∀ value, saveFilter ls value = .ok ls)
    ∧ (∀ (id : String) (pg : Page), ∃ pg',
        onFilterClick id { pg with localStorage := ls } = .ok pg'
        ∧ pg'.state = applyFilter (updateButtons { pg.state with filter := id }))
    ∧ (ls.readRaises = true →
        ∀ list : Element, (init list (Page.initial ls)).page.state.filter = "all") := by
  refine ⟨loadFilter_ok ls, saveFilter_ok ls, ?_, ?_, ?_, fun h list =>
    init_filter_of_unreadable ls h list⟩
  · intro h
    unfold loadFilter Storage.getItem
    rw [h]
    rfl
  · intro h value
    unfold saveFilter Storage.setItem
    rw [h]
    rfl
  · intro id pg
    obtain ⟨ls', hls'⟩ := saveFilter_ok ls id
    refine ⟨{ pg with
      state := applyFilter (updateButtons { pg.state with filter := id }),
      localStorage := ls' }, ?_, rfl⟩
    unfold onFilterClick
    dsimp only
    rw [hls']
    rfl

/-- A storage on a restricted page: both accesses raise, both functions return. -/
theorem storage_failure_swallowed_witness :
    loadFilter restrictedStorage = .ok none
    ∧ saveFilter restrictedStorage "enabled" = .ok restrictedStorage
    ∧ (init sampleList (Page.initial restrictedStorage)).page.state.filter = "all" :=
  ⟨(storage_failure_swallowed restrictedStorage).2.2.1 rfl,
    (storage_failure_swallowed restrictedStorage).2.2.2.1 rfl "enabled",
    (storage_failure_swallowed restrictedStorage).2.2.2.2.2 rfl sampleList⟩

/-! ## Debounced scheduling -/

theorem scheduleApply_idle {w : Sched} (h0 : w.state.rafId = 0) :
    scheduleApply w
      = { w with
          state := { w.state with rafId := w.lastHandle + 1 },
          callbacks := w.callbacks ++ [w.lastHandle + 1],
          lastHandle := w.lastHandle + 1 } := by
  simp [scheduleApply, h0, requestAnimationFrame]

theorem scheduleApply_pending {w : Sched} (h0 : w.state.rafId ≠ 0) : scheduleApply w = w := by
  simp [scheduleApply, h0]

theorem scheduleApplyTimes_pending {w : Sched} (h0 : w.state.rafId ≠ 0) (n : Nat) :
    scheduleApplyTimes n w = w := by
  induction n with
  | zero => rfl
  | succ n ih => rw [scheduleApplyTimes, scheduleApply_pending h0, ih]

theorem rafId_scheduleApply (w : Sched) : (scheduleApply w).state.rafId ≠ 0 := by
  by_cases h0 : w.state.rafId = 0
  · rw [scheduleApply_idle h0]
    exact Nat.succ_ne_zero _
  · rw [scheduleApply_pending h0]
    exact h0

/-- Calls after the first change nothing. -/
theorem scheduleApplyTimes_succ (w : Sched) (n : Nat) :
    scheduleApplyTimes (n + 1) w = scheduleApply w := by
  rw [scheduleApplyTimes, scheduleApplyTimes_pending (rafId_scheduleApply w)]

theorem coalesced_scheduleApply {w : Sched} (h : w.Coalesced) :
    (scheduleApply w).Coalesced ∧ (scheduleApply w).callbacks.length = 1
      ∧ (scheduleApply w).passes = w.passes := by
  rcases h with ⟨h0, hc⟩ | ⟨h0, hc⟩
  · rw [scheduleApply_idle h0]
    refine ⟨Or.inr ⟨Nat.succ_ne_zero _, ?_⟩, ?_, rfl⟩
    · simp [hc]
    · simp [hc]
  · rw [scheduleApply_pending h0]
    exact ⟨Or.inr ⟨h0, hc⟩, by rw [hc]; rfl, rfl⟩

theorem frameCallback_zero (w : Sched) :
    frameCallback 0 w
      = { w with state := applyFilter { w.state with rafId := 0 }, passes := w.passes + 1 } :=
  rfl

theorem frameCallback_succ (w : Sched) (d : Nat) :
    frameCallback (d + 1) w
      = { w with
          state := applyFilter { w.state with rafId := w.lastHandle + 1 },
          callbacks := w.callbacks ++ [w.lastHandle + 1],
          lastHandle := w.lastHandle + 1,
          passes := w.passes + 1 } := by
  unfold frameCallback
  dsimp only
  rw [scheduleApplyTimes_succ, scheduleApply_idle rfl]

theorem runFrame_idle {w : Sched} (hc : w.callbacks = []) (d : Nat) : runFrame d w = w := by
  unfold runFrame
  rw [hc]
  simp only [List.foldl_nil]
  cases w
  simp only at hc
  subst hc
  rfl

theorem runFrame_one {w : Sched} {r : Nat} (hc : w.callbacks = [r]) (d : Nat) :
    runFrame d w = frameCallback d { w with callbacks := [] } := by
  unfold runFrame
  rw [hc]
  rfl

theorem coalesced_runFrame {w : Sched} (h : w.Coalesced) (d : Nat) :
    (runFrame d w).Coalesced := by
  rcases h with ⟨h0, hc⟩ | ⟨h0, hc⟩
  · rw [runFrame_idle hc]
    exact Or.inl ⟨h0, hc⟩
  · rw [runFrame_one hc]
    cases d with
    | zero =>
      rw [frameCallback_zero]
      exact Or.inl ⟨by simp only [applyFilter_rafId], rfl⟩
    | succ d =>
      rw [frameCallback_succ]
      refine Or.inr ⟨?_, ?_⟩
      · simp only [applyFilter_rafId]
        exact Nat.succ_ne_zero _
      · simp only [applyFilter_rafId, List.nil_append]

theorem coalesced_run (s : State) (lastHandle : Nat) (events : List SchedEvent) :
    ((Sched.start s lastHandle).run events).Coalesced := by
  have hgen : ∀ (events : List SchedEvent) (w : Sched), w.Coalesced →
      (w.run events).Coalesced := by
    intro events
    induction events with
    | nil => intro w hw; exact hw
    | cons ev rest ih =>
      intro w hw
      apply ih
      cases ev with
      | schedule => exact (coalesced_scheduleApply hw).1
      | frame d => exact coalesced_runFrame hw d
  exact hgen events _ (Or.inl ⟨rfl, rfl⟩)

/-- One frame after at least one request: exactly one pass, run with the token cleared. -/
theorem runFrame_scheduleApply {w : Sched} (h : w.Coalesced) (d : Nat) :
    (runFrame d (scheduleApply w)).passes = w.passes + 1
    ∧ (runFrame 0 (scheduleApply w)).callbacks = []
    ∧ (runFrame 0 (scheduleApply w)).state = applyFilter { w.state with rafId := 0 }
    ∧ (runFrame (d + 1) (scheduleApply w)).callbacks.length = 1 := by
  obtain ⟨hco, hlen, hp⟩ := coalesced_scheduleApply h
  have hone : ∃ r, (scheduleApply w).callbacks = [r] := by
    rcases hco with ⟨-, hc⟩ | ⟨-, hc⟩
    · rw [hc] at hlen; cases hlen
    · exact ⟨_, hc⟩
  obtain ⟨r, hr⟩ := hone
  have hstate : ({ (scheduleApply w).state with rafId := 0 } : State)
      = { w.state with rafId := 0 } := by
    by_cases h0 : w.state.rafId = 0
    · rw [scheduleApply_idle h0]
    · rw [scheduleApply_pending h0]
  refine ⟨?_, ?_, ?_, ?_⟩
  · rw [runFrame_one hr]
    cases d with
    | zero => rw [frameCallback_zero]; exact congrArg (· + 1) hp
    | succ d => rw [frameCallback_succ]; exact congrArg (· + 1) hp
  · rw [runFrame_one hr, frameCallback_zero]
  · rw [runFrame_one hr, frameCallback_zero]
    show applyFilter { (scheduleApply w).state with rafId := 0 } = _
    rw [hstate]
  · rw [runFrame_one hr, frameCallback_succ]
    rfl

theorem runFrame_passes_of_one {w : Sched} {r : Nat} (hc : w.callbacks = [r]) :
    (runFrame 0 w).passes = w.passes + 1 := by
  rw [runFrame_one hc, frameCallback_zero]

/-- C7: at every state reached from the start by calls of `scheduleApply()` and animation
frames, at most one frame callback is outstanding, and none exactly when `state.rafId` is 0.
From such a state `n ≥ 1` calls of `scheduleApply()` before the next frame leave exactly one
callback outstanding (registering exactly one when none was), and the frame runs exactly one
pass of `applyFilter`, on a state whose `rafId` has been cleared, and leaves nothing pending.
Calls made during that pass leave exactly one callback outstanding, and calls made after it
register exactly one; either way the next frame runs exactly one further pass. -/
theorem scheduleApply_coalesces (s : State) (lastHandle : Nat) (events : List SchedEvent)
    (n : Nat) (hn : 1 ≤ n) :
    (((Sched.start s lastHandle).run events).callbacks.length ≤ 1
      ∧ (((Sched.start s lastHandle).run events).state.rafId = 0
          ↔ ((Sched.start s lastHandle).run events).callbacks = []))
    ∧ (scheduleApplyTimes n ((Sched.start s lastHandle).run events)).callbacks.length = 1
    ∧ (((Sched.start s lastHandle).run events).callbacks = [] →
        (scheduleApplyTimes n ((Sched.start s lastHandle).run events)).lastHandle
          = ((Sched.start s lastHandle).run events).lastHandle + 1)
    ∧ (runFrame 0 (scheduleApplyTimes n ((Sched.start s lastHandle).run events))).passes
        = ((Sched.start s lastHandle).run events).passes + 1
    ∧ (runFrame 0 (scheduleApplyTimes n ((Sched.start s lastHandle).run events))).callbacks = []
    ∧ (runFrame 0 (scheduleApplyTimes n ((Sched.start s lastHandle).run events))).state
        = applyFilter { ((Sched.start s lastHandle).run events).state with rafId := 0 }
    ∧ (∀ d, 1 ≤ d →
        (runFrame d (scheduleApplyTimes n
            ((Sched.start s lastHandle).run events))).callbacks.length = 1
        ∧ (runFrame d (scheduleApplyTimes n ((Sched.start s lastHandle).run events))).passes
            = ((Sched.start s lastHandle).run events).passes + 1
        ∧ (runFrame 0 (runFrame d (scheduleApplyTimes n
            ((Sched.start s lastHandle).run events)))).passes
            = ((Sched.start s lastHandle).run events).passes + 2)
    ∧ (∀ m, 1 ≤ m →
        (scheduleApplyTimes m (runFrame 0 (scheduleApplyTimes n
            ((Sched.start s lastHandle).run events)))).callbacks.length = 1
        ∧ (scheduleApplyTimes m (runFrame 0 (scheduleApplyTimes n
            ((Sched.start s lastHandle).run events)))).lastHandle
            = (runFrame 0 (scheduleApplyTimes n
                ((Sched.start s lastHandle).run events))).lastHandle + 1
        ∧ (runFrame 0 (scheduleApplyTimes m (runFrame 0 (scheduleApplyTimes n
            ((Sched.start s lastHandle).run events))))).passes
            = ((Sched.start s lastHandle).run events).passes + 2) := by
  have hw := coalesced_run s lastHandle events
  generalize (Sched.start s lastHandle).run events = w at hw
  obtain ⟨n, rfl⟩ : ∃ k, n = k + 1 := ⟨n - 1, by omega⟩
  rw [scheduleApplyTimes_succ]
  obtain ⟨hco, hlen, hp⟩ := coalesced_scheduleApply hw
  obtain ⟨f1, f2, f3, -⟩ := runFrame_scheduleApply hw 0
  refine ⟨⟨?_, ?_⟩, hlen, ?_, f1, f2, f3, ?_, ?_⟩
  · rcases hw with ⟨-, hc⟩ | ⟨-, hc⟩ <;> rw [hc] <;> simp
  · rcases hw with ⟨h0, hc⟩ | ⟨h0, hc⟩
    · exact ⟨fun _ => hc, fun _ => h0⟩
    · exact ⟨fun h => absurd h h0, fun h => by rw [hc] at h; cases h⟩
  · intro hc
    have h0 : w.state.rafId = 0 := by
      rcases hw with ⟨h0, -⟩ | ⟨-, hc'⟩
      · exact h0
      · rw [hc] at hc'; cases hc'
    rw [scheduleApply_idle h0]
  · intro d hd
    obtain ⟨d, rfl⟩ : ∃ k, d = k + 1 := ⟨d - 1, by omega⟩
    obtain ⟨g1, -, -, g4⟩ := runFrame_scheduleApply hw d
    have g1' := (runFrame_scheduleApply hw (d + 1)).1
    refine ⟨g4, g1', ?_⟩
    have hco' := coalesced_runFrame hco (d + 1)
    rcases hco' with ⟨-, hc⟩ | ⟨-, hc⟩
    · rw [hc] at g4; cases g4
    · rw [runFrame_passes_of_one hc, g1']
  · intro m hm
    obtain ⟨m, rfl⟩ : ∃ k, m = k + 1 := ⟨m - 1, by omega⟩
    rw [scheduleApplyTimes_succ]
    have hco' := coalesced_runFrame hco 0
    obtain ⟨-, hlen', -⟩ := coalesced_scheduleApply hco'
    have h1 := (runFrame_scheduleApply hco' 0).1
    refine ⟨hlen', ?_, by rw [h1, f1]⟩
    have h0 : (runFrame 0 (scheduleApply w)).state.rafId = 0 := by
      rw [f3, applyFilter_rafId]
    rw [scheduleApply_idle h0]

/-- Three calls of `scheduleApply()` on the sample page before a frame: one callback, one
pass. -/
theorem scheduleApply_coalesces_witness :
    (scheduleApplyTimes 3 ((Sched.start sampleState 0).run [])).callbacks.length = 1
    ∧ (runFrame 0 (scheduleApplyTimes 3 ((Sched.start sampleState 0).run []))).passes
        = ((Sched.start sampleState 0).run []).passes + 1 :=
  ⟨(scheduleApply_coalesces sampleState 0 [] 3 (by decide)).2.1,
    (scheduleApply_coalesces sampleState 0 [] 3 (by decide)).2.2.2.1⟩

end ArcBoost
